import Mathlib

/-!  Verification of the PDF→YAML schema-conversion workflow
     (`langgraph_agents/workflow.py`, `langgraph_agents/agents/validator.py`,
     `langgraph_agents/states.py`).

  Shallow-embedding conventions:
  * Python floats are modelled as exact rationals (ℚ).
  * Python dicts are modelled as insertion-ordered association lists with
    replace-on-insert (`dictInsert`) and first-match lookup (`dictLookup`).
  * External collaborators (PDF extraction, the generation call and the
    per-field scoring call) are explicit deterministic oracles in `Env`;
    quantifying over `Env` captures their nondeterminism, and
    `Option`/`Except` error results model raised exceptions.
  * Python's `re`, `str.strip`, `str.splitlines` are modelled on their ASCII
    fragment (`\w` as letters/digits/underscore, whitespace as the six ASCII
    whitespace characters, line boundaries `\n`, `\r`, `\r\n`).
-/

namespace PdfToYaml

/-- Characters Python treats as whitespace in `str.strip` and `\s` (ASCII fragment). -/
def isSpaceChar (c : Char) : Bool :=
  c = ' ' || c = '\t' || c = '\n' || c = '\r' || c = '\x0b' || c = '\x0c'

/-- Python's `\w` (ASCII fragment: letters, digits, underscore). -/
def isWordChar (c : Char) : Bool :=
  c.isAlpha || c.isDigit || c = '_'

/-- Python `str.strip()`. -/
def pyStrip (s : String) : String :=
  String.mk (((s.data.dropWhile isSpaceChar).reverse.dropWhile isSpaceChar).reverse)

/-- Helper for `str.splitlines`: the Bool flag records that the previous character
    was a line-ending `\r` (so that a following `\n` is part of the same boundary). -/
def pySplitlinesAux : List Char → List Char → Bool → List String
  | [], acc, _ => if acc.isEmpty then [] else [String.mk acc.reverse]
  | c :: cs, acc, afterCR =>
    if c = '\n' then
      if afterCR then pySplitlinesAux cs acc false
      else String.mk acc.reverse :: pySplitlinesAux cs [] false
    else if c = '\r' then String.mk acc.reverse :: pySplitlinesAux cs [] true
    else pySplitlinesAux cs (c :: acc) false

/-- Python `str.splitlines()` on the `\n` / `\r` / `\r\n` boundaries. -/
def pySplitlines (s : String) : List String := pySplitlinesAux s.data [] false

/-- Is `p` a contiguous prefix of the second list. -/
def isPrefB : List Char → List Char → Bool
  | [], _ => true
  | _ :: _, [] => false
  | a :: as, b :: bs => a == b && isPrefB as bs

/-- Is `p` a contiguous substring of the second list. -/
def isSubB : List Char → List Char → Bool
  | p, [] => p.isEmpty
  | p, c :: t => isPrefB p (c :: t) || isSubB p t

/-- Python's `needle in hay` on strings. -/
def strContains (hay needle : String) : Bool := isSubB needle.data hay.data

/-- Python dict lookup (`d[k]`, with `k in d` as `isSome`). -/
def dictLookup {β : Type} : List (String × β) → String → Option β
  | [], _ => none
  | (k', v) :: t, k => if k = k' then some v else dictLookup t k

/-- Python dict assignment `d[k] = v`: replaces in place if present, else appends. -/
def dictInsert {β : Type} (d : List (String × β)) (k : String) (v : β) : List (String × β) :=
  if (dictLookup d k).isSome then d.map (fun kv => if kv.1 = k then (k, v) else kv)
  else d ++ [(k, v)]

/-- A parsed schema field: the dict `{"name": field_id, "type": ..., "description": ...}`
    built in `SchemaValidator._check_yaml` (validator.py lines 128-138). -/
structure Column where
  name : String
  dtype : String
  descr : String
deriving DecidableEq

/-- Matches `\s*(\w+),\s*(.*)` after the `":` of the field regex: greedy whitespace,
    a nonempty word-character run, a comma, whitespace, then the rest of the line.
    (Backtracking cannot help here: a shorter `\w+` run still faces a word character,
    and fewer `\s*` characters face a whitespace character, so this direct scan is
    exactly the regex semantics.) -/
def restMatch (rest : List Char) : Option (String × String) :=
  let r1 := rest.dropWhile isSpaceChar
  let w := r1.takeWhile isWordChar
  let r2 := r1.dropWhile isWordChar
  if w.isEmpty then none
  else
    match r2 with
    | ',' :: r3 => some (String.mk w, String.mk (r3.dropWhile isSpaceChar))
    | _ => none

/-- The lazy group `(.*?)` of `re.match(r'^"(.*?)":\s*(\w+),\s*(.*)', line)`: scan for
    the shortest name after the opening quote such that `":` plus the rest of the
    pattern matches at that point. -/
def matchFrom : List Char → List Char → Option (String × String × String)
  | _, [] => none
  | acc, c :: cs =>
    let attempt : Option (String × String) :=
      if c = '"' then
        match cs with
        | ':' :: rest => restMatch rest
        | _ => none
      else none
    match attempt with
    | some (t, d) => some (String.mk acc.reverse, t, d)
    | none => matchFrom (c :: acc) cs

/-- `re.match(r'^"(.*?)":\s*(\w+),\s*(.*)', line.strip())` (validator.py line 129):
    the line must start with `"`, then the lazy scan runs. -/
def matchFieldLine (line : String) : Option (String × String × String) :=
  match (pyStrip line).data with
  | '"' :: rest => matchFrom [] rest
  | _ => none

/-- The column-collecting loop over `raw_text.splitlines()` (validator.py 125-138):
    each matching line contributes a column with all three components stripped
    (`\s*` already removed what precedes the captured groups, `.strip()` the rest). -/
def parseColumns (raw : String) : List Column :=
  (pySplitlines raw).foldl (fun cols line =>
    match matchFieldLine line with
    | some (n, t, d) => cols ++ [⟨pyStrip n, pyStrip t, pyStrip d⟩]
    | none => cols) []

/-- Helper for `buildPositions`, carrying the running index. -/
def buildPositionsAux : List Column → Nat → List (String × Nat) → List (String × Nat)
  | [], _, acc => acc
  | c :: cs, i, acc => buildPositionsAux cs (i + 1) (dictInsert acc c.name i)

/-- `field_positions[field_id] = len(columns) - 1`, accumulated over the parse loop
    (validator.py line 138); a repeated id keeps the position of its last occurrence. -/
def buildPositions (cols : List Column) : List (String × Nat) :=
  buildPositionsAux cols 0 []

/-- Oracle for the Scoring Service: `some s` models a successful call whose reply
    parses to the float `s`; `none` models any raised exception (transport failure or
    an unparseable reply), which `_score_component` degrades to `0.0` without caching. -/
abbrev ScoreSvc := String → String → Option ℚ

abbrev Cache := List (String × ℚ)

/-- `cache_key = f"{field_type}:{field_value}"` (validator.py line 41). -/
def mkCacheKey (ftype fvalue : String) : String := ftype ++ ":" ++ fvalue

structure ScoreRes where
  score : ℚ
  cache : Cache
  calls : Nat
deriving DecidableEq

/-- `SchemaValidator._score_component` (validator.py lines 37-68); `calls` counts
    Scoring Service invocations made by this call. -/
def score_component (svc : ScoreSvc) (cache : Cache) (ftype fvalue : String) : ScoreRes :=
  if fvalue = "" then ⟨0, cache, 0⟩
  else
    match dictLookup cache (mkCacheKey ftype fvalue) with
    | some s => ⟨s, cache, 0⟩
    | none =>
      match svc ftype fvalue with
      | some s => ⟨s, dictInsert cache (mkCacheKey ftype fvalue) s, 1⟩
      | none => ⟨0, cache, 1⟩

/-- `SchemaValidator._label_score` (validator.py lines 70-75). -/
def label_score (s : ℚ) : String :=
  if s ≥ 90 then "Accurate & Specific"
  else if s ≥ 75 then "Semantically Aligned"
  else if s ≥ 60 then "Vague / Abstract"
  else if s ≥ 40 then "Inaccurate"
  else "Missing or irrelevant"

/-- Round half-to-even (Python's rounding mode for `round` and `format`), on the
    exact rational model of floats. -/
def roundHalfEven (q : ℚ) : ℤ :=
  let f := ⌊q⌋
  let frac := q - f
  if frac < 1 / 2 then f
  else if 1 / 2 < frac then f + 1
  else if f % 2 = 0 then f else f + 1

/-- Zero-pad a digit string on the left to width `d`. -/
def natPad (s : String) (d : Nat) : String :=
  if d ≤ s.length then s else String.mk (List.replicate (d - s.length) '0') ++ s

/-- Python fixed-point float formatting (the `:.1f` / `:.2f` / `:.4f` conversions),
    on the rational model. -/
def fmtFixed (d : Nat) (q : ℚ) : String :=
  let n := roundHalfEven (q * (10 : ℚ) ^ d)
  let a := n.natAbs
  let ip := a / 10 ^ d
  let fp := a % 10 ^ d
  (if n < 0 then "-" else "") ++ toString ip ++
    (if d = 0 then "" else "." ++ natPad (toString fp) d)

/-- Python `round(x, 4)` on the rational model (validator.py line 217). -/
def round4 (q : ℚ) : ℚ := (roundHalfEven (q * 10000) : ℚ) / 10000

/-- Feedback line for a missing name component (validator.py line 179). -/
def structureMsgName (id : String) : String :=
  "[STRUCTURE] Field '" ++ id ++ "' is missing a name component"

/-- Feedback line for a missing type component (validator.py line 181). -/
def structureMsgType (id : String) : String :=
  "[STRUCTURE] Field '" ++ id ++ "' is missing a type component"

/-- Feedback line for a missing description component (validator.py line 183). -/
def structureMsgDesc (id : String) : String :=
  "[STRUCTURE] Field '" ++ id ++ "' is missing a description component"

/-- Feedback line for a name-gate failure (validator.py lines 200-201). -/
def nameGateMsg (id : String) (s : ℚ) : String :=
  "[NAME GATE] Field '" ++ id ++ "' name_score=" ++ fmtFixed 1 s ++ " (" ++
    label_score s ++ "). Must be ≥ 90."

/-- Feedback line for a type-gate failure (validator.py lines 205-206). -/
def typeGateMsg (id : String) (s : ℚ) : String :=
  "[TYPE GATE] Field '" ++ id ++ "' type_score=" ++ fmtFixed 1 s ++ " (" ++
    label_score s ++ "). Must be ≥ 75."

/-- Feedback line for a description-gate failure (validator.py lines 210-211). -/
def descGateMsg (id : String) (s : ℚ) : String :=
  "[DESC GATE] Field '" ++ id ++ "' desc_score=" ++ fmtFixed 1 s ++ " (" ++
    label_score s ++ "). Must be ≥ 75."

/-- Python `set.add`. -/
def setAdd (s : List String) (x : String) : List String :=
  if x ∈ s then s else s ++ [x]

/-- Body of the selective-evaluation loop (validator.py lines 148-154): a previously
    failed field is kept if its id is still a current position key, otherwise
    recovered through its previous in-bounds ordinal position. -/
def evalStep (cols : List Column) (positions prevPos : List (String × Nat))
    (s : List String) (f : String) : List String :=
  if (dictLookup positions f).isSome then setAdd s f
  else
    match dictLookup prevPos f with
    | some pos => if pos < cols.length then setAdd s ((cols.getD pos ⟨"", "", ""⟩).name) else s
    | none => s

/-- The selective evaluation set (validator.py lines 146-154). -/
def fieldsToEvaluate (cols : List Column) (positions : List (String × Nat))
    (prevFailed : List String) (prevPos : List (String × Nat)) : List String :=
  prevFailed.foldl (evalStep cols positions prevPos) []

/-- The mutable locals of the per-column loop of `_check_yaml`
    (validator.py lines 108-110, 160-161), plus the threaded cache and a counter of
    Scoring Service calls. -/
structure LoopAcc where
  field_scores : List ℚ
  feedback_lines : List String
  failed_fields : List String
  structure_fail : Bool
  name_fail : Bool
  quality_fail : Bool
  evaluated_count : Nat
  skipped_count : Nat
  cache : Cache
  calls : Nat
deriving DecidableEq

def initAcc (cache : Cache) : LoopAcc := ⟨[], [], [], false, false, false, 0, 0, cache, 0⟩

/-- Body of the per-column loop (validator.py lines 163-214). -/
def processColumn (svc : ScoreSvc) (ev : List String) (acc : LoopAcc) (col : Column) : LoopAcc :=
  let field_id := col.name
  let name := pyStrip col.name
  let dtype := pyStrip col.dtype
  let descr := pyStrip col.descr
  if field_id ∉ ev then
    { acc with field_scores := acc.field_scores ++ [90], skipped_count := acc.skipped_count + 1 }
  else
    let acc1 := { acc with evaluated_count := acc.evaluated_count + 1 }
    if name = "" ∨ dtype = "" ∨ descr = "" then
      { acc1 with
        structure_fail := true,
        feedback_lines := acc1.feedback_lines
          ++ (if name = "" then [structureMsgName field_id] else [])
          ++ (if dtype = "" then [structureMsgType field_id] else [])
          ++ (if descr = "" then [structureMsgDesc field_id] else []),
        failed_fields := acc1.failed_fields ++ [field_id] }
    else
      let r1 := score_component svc acc1.cache "name" name
      let r2 := score_component svc r1.cache "type" dtype
      let r3 := score_component svc r2.cache "description" descr
      let field_score := r1.score * 0.5 + r3.score * 0.3 + r2.score * 0.2
      { acc1 with
        field_scores := acc1.field_scores ++ [field_score],
        name_fail := acc1.name_fail || decide (r1.score < 90),
        quality_fail := acc1.quality_fail || decide (r2.score < 75) || decide (r3.score < 75),
        feedback_lines := acc1.feedback_lines
          ++ (if r1.score < 90 then [nameGateMsg field_id r1.score] else [])
          ++ (if r2.score < 75 then [typeGateMsg field_id r2.score] else [])
          ++ (if r3.score < 75 then [descGateMsg field_id r3.score] else []),
        failed_fields := if r1.score < 90 ∨ r2.score < 75 ∨ r3.score < 75
          then acc1.failed_fields ++ [field_id] else acc1.failed_fields,
        cache := r3.cache,
        calls := acc1.calls + r1.calls + r2.calls + r3.calls }

/-- Python `sep.join(xs)`. -/
def pyJoin (sep : String) : List String → String
  | [] => ""
  | a :: as => as.foldl (fun r x => r ++ sep ++ x) a

def passFeedback : String := "VALIDATION RESULT: Passed (all checks successful)"

/-- The feedback text assembly of `_check_yaml` (validator.py lines 221-236). -/
def buildFeedback (lines : List String) (schema_score conf : ℚ)
    (retry structure_fail name_fail quality_fail : Bool) (failed : List String) : String :=
  if lines.isEmpty then passFeedback
  else
    let base := "VALIDATION FEEDBACK:\n" ++ pyJoin "\n" lines
      ++ "\n\nOverall Schema Score: " ++ fmtFixed 2 schema_score ++ "/100 (" ++
      fmtFixed 4 conf ++ ")"
    if retry then
      base ++ "\n\nFailed Fields: " ++ pyJoin ", " (failed.map (fun f => "\"" ++ f ++ "\""))
        ++ "\n\nVALIDATION RESULT: Failed (retry required)"
        ++ (if structure_fail then "\n- Structure Gate: Failed (missing components)" else "")
        ++ (if name_fail then "\n- Name Gate: Failed (name scores below threshold)" else "")
        ++ (if quality_fail then
              "\n- Quality Gate: Failed (type/description scores below threshold)" else "")
        ++ "\n\nPlease fix the issues highlighted above and regenerate the YAML."
    else base

/-- One entry of the list under the dataset key: a dict whose `"content"` value
    `_check_yaml` reads with `.get("content", "")` (missing key modelled as `""`). -/
structure YEntry where
  content : String
deriving DecidableEq

/-- The value under the dataset key: a Python list of entries, or any non-list value. -/
inductive YVal where
  | entries (es : List YEntry)
  | nonList
deriving DecidableEq

/-- The parsed YAML candidate: a Python dict as an insertion-ordered association
    list (`next(iter(...))` is the first key). -/
abbrev YDict := List (String × YVal)

/-- The full result of `_check_yaml`: the returned tuple
    `(is_valid, confidence, feedback, failed_fields, field_positions)` plus the
    loop's locals (`structure_fail`/`name_fail`/`quality_fail`, `field_scores`,
    `fields_to_evaluate`) exposed for specification, the updated cache and the
    number of Scoring Service calls made. -/
structure CheckResult where
  is_valid : Bool
  confidence : ℚ
  feedback : String
  failed_fields : List String
  field_positions : List (String × Nat)
  structure_fail : Bool
  name_fail : Bool
  quality_fail : Bool
  field_scores : List ℚ
  fields_to_evaluate : List String
  cache : Cache
  calls : Nat
deriving DecidableEq

/-- An early `return False, 0.0, msg, [], {}` of `_check_yaml`
    (validator.py lines 112-141). -/
def earlyResult (msg : String) (cache : Cache) : CheckResult :=
  ⟨false, 0, msg, [], [], false, false, false, [], [], cache, 0⟩

/-- "the validation reported a gate failure": `retry_required` of `_check_yaml`
    (validator.py line 218). -/
def gateFailure (r : CheckResult) : Bool :=
  r.structure_fail || r.name_fail || r.quality_fail

/-- The evaluation-scope decision (validator.py lines 144-158): selective on a later
    iteration with a non-empty prior failure set, otherwise the set of all parsed
    field names. -/
def evalSet (cols : List Column) (prevFailed : List String)
    (prevPos : List (String × Nat)) (iteration : Nat) : List String :=
  if 1 < iteration ∧ prevFailed ≠ [] then
    fieldsToEvaluate cols (buildPositions cols) prevFailed prevPos
  else cols.foldl (fun s c => setAdd s c.name) []

/-- `_check_yaml` from the point where `columns` is nonempty
    (validator.py lines 143-239). -/
def mainCheck (svc : ScoreSvc) (cache : Cache) (cols : List Column)
    (prevFailed : List String) (prevPos : List (String × Nat)) (iteration : Nat) : CheckResult :=
  let positions := buildPositions cols
  let ev := evalSet cols prevFailed prevPos iteration
  let la := cols.foldl (processColumn svc ev) (initAcc cache)
  let schema_score := if la.field_scores.isEmpty then 0
                      else la.field_scores.sum / (la.field_scores.length : ℚ)
  let confidence := round4 (schema_score / 100)
  let retry := la.structure_fail || la.name_fail || la.quality_fail
  let feedback := buildFeedback la.feedback_lines schema_score confidence retry
                    la.structure_fail la.name_fail la.quality_fail la.failed_fields
  ⟨!retry, confidence, feedback, la.failed_fields, positions,
    la.structure_fail, la.name_fail, la.quality_fail, la.field_scores, ev, la.cache, la.calls⟩

/-- `SchemaValidator._check_yaml` (validator.py lines 100-239). -/
def check_yaml (svc : ScoreSvc) (cache : Cache) (yaml : Option YDict)
    (prevFailed : List String) (prevPos : List (String × Nat)) (iteration : Nat) : CheckResult :=
  match yaml with
  | none => earlyResult "No YAML content found" cache
  | some [] => earlyResult "No YAML content found" cache
  | some ((dataset_name, YVal.nonList) :: _) =>
    earlyResult ("No entries under dataset '" ++ dataset_name ++ "'") cache
  | some ((dataset_name, YVal.entries []) :: _) =>
    earlyResult ("No entries under dataset '" ++ dataset_name ++ "'") cache
  | some ((_, YVal.entries (e :: _)) :: _) =>
    if e.content = "" then earlyResult "No 'content' found in dataset entry" cache
    else
      let cols := parseColumns e.content
      if cols.isEmpty then earlyResult "No valid fields found in schema" cache
      else mainCheck svc cache cols prevFailed prevPos iteration

/-- The columns `_check_yaml` parses from a candidate (empty in every early-exit case). -/
def parsedColumns (yaml : Option YDict) : List Column :=
  match yaml with
  | none => []
  | some [] => []
  | some ((_, YVal.nonList) :: _) => []
  | some ((_, YVal.entries []) :: _) => []
  | some ((_, YVal.entries (e :: _)) :: _) =>
    if e.content = "" then [] else parseColumns e.content

/-- `PDFState` (states.py): the fields the orchestration logic reads or writes.
    `stacktrace`, `output_path` and `json_obj` are display/IO-only and omitted. -/
structure VState where
  pdf_path : String
  extracted_text : String
  current_yaml : Option YDict
  iteration_count : Nat
  confidence_score : ℚ
  validation_feedback : Option String
  is_final : Bool
  error : Option String
  failed_fields : List String
  field_positions : List (String × Nat)
deriving DecidableEq

/-- `WorkflowConfig` (states.py lines 18-26). -/
structure WorkflowConfig where
  max_iterations : Nat
  confidence_threshold : ℚ

/-- `PDFToYAMLWorkflow.__init__` builds
    `WorkflowConfig(max_iterations=3, confidence_threshold=0.8)` (workflow.py line 24). -/
def defaultConfig : WorkflowConfig := ⟨3, 0.8⟩

structure ValidateRes where
  state : VState
  cache : Cache
  calls : Nat
deriving DecidableEq

/-- `SchemaValidator.validate_and_suggest` (validator.py lines 77-98).  The
    surrounding `PDFToYAMLWorkflow._validate_yaml` copies exactly the keys this
    method writes back into the graph state, so it is also the model of that node. -/
def validate_and_suggest (svc : ScoreSvc) (cfg : WorkflowConfig) (cache : Cache)
    (s : VState) : ValidateRes :=
  if cfg.max_iterations ≤ s.iteration_count then ⟨{ s with is_final := true }, cache, 0⟩
  else
    let r := check_yaml svc cache s.current_yaml s.failed_fields s.field_positions
               s.iteration_count
    ⟨{ s with
        confidence_score := r.confidence,
        validation_feedback := some r.feedback,
        failed_fields := r.failed_fields,
        field_positions := r.field_positions,
        is_final := decide (cfg.max_iterations ≤ s.iteration_count) || r.is_valid },
      r.cache, r.calls⟩

inductive Node where
  | start
  | extract
  | generate
  | validate
  | output
  | done
deriving DecidableEq

/-- External collaborators: extraction by path, generation as a function of the
    state the prompt is built from, and the scoring oracle.  `Except.error` models a
    raised exception. -/
structure Env where
  extractText : String → Except String String
  generate : VState → Except String YDict
  svc : ScoreSvc

/-- `PDFToYAMLWorkflow._extract_text` (workflow.py lines 66-79). -/
def extractStep (env : Env) (s : VState) : VState :=
  match env.extractText s.pdf_path with
  | Except.ok t => { s with extracted_text := t }
  | Except.error e => { s with error := some e, is_final := true }

/-- `PDFToYAMLWorkflow._generate_yaml` (workflow.py lines 81-93): on success the
    candidate is stored and `iteration_count` incremented; on an exception the error
    is recorded, `is_final` set, and `iteration_count` left unchanged. -/
def generateStep (env : Env) (s : VState) : VState :=
  match env.generate s with
  | Except.ok y => { s with current_yaml := some y, iteration_count := s.iteration_count + 1 }
  | Except.error e => { s with error := some e, is_final := true }

def gateTags : List String := ["[NAME GATE]", "[TYPE GATE]", "[DESC GATE]", "[STRUCTURE]"]

/-- `any(tag in feedback for tag in [...])` (workflow.py line 56). -/
def containsGateTag (feedback : String) : Bool :=
  gateTags.any (fun t => strContains feedback t)

/-- `validate_router` (workflow.py lines 54-59). -/
def validate_router (cfg : WorkflowConfig) (s : VState) : Node :=
  if containsGateTag ((s.validation_feedback).getD "") then
    if s.iteration_count < cfg.max_iterations then Node.generate else Node.output
  else Node.output

/-- `_format_output` persists files and fills `output_path`/`json_obj`, which live
    outside the modelled state; on the modelled fields it is the identity. -/
def outputStep (s : VState) : VState := s

/-- A configuration of the compiled graph run: current node, graph state, the
    class-level score cache, and instrumentation counting executions of the
    generate node and Scoring Service calls. -/
structure WStep where
  node : Node
  state : VState
  cache : Cache
  genCalls : Nat
  svcCalls : Nat
deriving DecidableEq

/-- One superstep of the compiled graph (workflow.py lines 30-64):
    START→extract, extract→generate and generate→validate unconditionally,
    validate→`validate_router`'s choice, output→END. -/
def step (cfg : WorkflowConfig) (env : Env) (w : WStep) : WStep :=
  match w.node with
  | Node.start => { w with node := Node.extract }
  | Node.extract => { w with node := Node.generate, state := extractStep env w.state }
  | Node.generate =>
    { w with node := Node.validate, state := generateStep env w.state,
             genCalls := w.genCalls + 1 }
  | Node.validate =>
    let r := validate_and_suggest env.svc cfg w.cache w.state
    ⟨validate_router cfg r.state, r.state, r.cache, w.genCalls, w.svcCalls + r.calls⟩
  | Node.output => { w with node := Node.done, state := outputStep w.state }
  | Node.done => w

/-- `n` supersteps of the graph. -/
def stepN (cfg : WorkflowConfig) (env : Env) : Nat → WStep → WStep
  | 0, w => w
  | n + 1, w => step cfg env (stepN cfg env n w)

/-- The initial state built in `PDFToYAMLWorkflow.run` (workflow.py lines 341-356). -/
def initState (path : String) : VState :=
  ⟨path, "", none, 0, 0, none, false, none, [], []⟩

def initW (path : String) (cache : Cache) : WStep := ⟨Node.start, initState path, cache, 0, 0⟩

/-- The score `_score_component` yields for a component when the cache is
    service-consistent: the service reply, with failure degraded to 0. -/
def scoreVal (svc : ScoreSvc) (k v : String) : ℚ :=
  if v = "" then 0 else (svc k v).getD 0

def scoreKinds : List String := ["name", "type", "description"]

/-- Every cached entry under a score-kind key agrees with the Scoring Service.
    This holds for every cache the validator itself builds, because only successful
    service replies are ever stored. -/
def cacheConsistent (svc : ScoreSvc) (cache : Cache) : Prop :=
  ∀ k v s, k ∈ scoreKinds → dictLookup cache (mkCacheKey k v) = some s → svc k v = some s

/-- `field_scores_cache = {}` is a class attribute of `SchemaValidator`
    (validator.py line 21) and `__init__` (lines 23-26) never resets it: a validator
    constructed for a new conversion run starts from whatever the class-level dict
    holds after previous runs in the process. -/
def cacheAtRunStart (classCache : Cache) : Cache := classCache

/-- Modelled from the spec (§4.3): the score cache "constructed fresh per
    Orchestrator invocation", i.e. a new run starts from an empty cache regardless
    of what earlier runs cached.  For comparison with `cacheAtRunStart`. -/
def specFreshCacheAtRunStart (_classCache : Cache) : Cache := []

/-- The loop invariant tying the feedback lines to the gate flags: lines exist
    exactly when some flag is set, and every line starts with a gate marker. -/
def accInv (a : LoopAcc) : Prop :=
  ((a.feedback_lines = []) ↔ (a.structure_fail || a.name_fail || a.quality_fail) = false)
  ∧ ∀ l, l ∈ a.feedback_lines → ∃ t, t ∈ gateTags ∧ t.data <+: l.data

/-! ### Concrete fixtures used by the claim theorems -/

/-- Scoring oracle of the spec's end-to-end example (§8): 95/95/95 for the `age`
    field's components, 40/80/80 for the `name` field's components. -/
def svcEx : ScoreSvc := fun k v =>
  if k = "name" ∧ v = "age" then some 95
  else if k = "type" ∧ v = "integer" then some 95
  else if k = "description" ∧ v = "the age of a person" then some 95
  else if k = "name" ∧ v = "name" then some 40
  else if k = "type" ∧ v = "string" then some 80
  else if k = "description" ∧ v = "the persons name" then some 80
  else some 0

def rawEx : String := "\"age\": integer, the age of a person\n\"name\": string, the persons name"

def yamlEx : YDict := [("people", YVal.entries [⟨rawEx⟩])]

/-- A Scoring Service whose every call raises (is degraded to 0, uncached). -/
def svcFail : ScoreSvc := fun _ _ => none

/-- A Scoring Service that scores every component 0. -/
def svc0 : ScoreSvc := fun _ _ => some 0

/-- A Scoring Service that scores every component 95 (all gates pass). -/
def svc95 : ScoreSvc := fun _ _ => some 95

def svcRun1 : ScoreSvc := fun _ _ => some 42

def svcRun2 : ScoreSvc := fun _ _ => some 7

/-- Candidate with two parsed fields sharing the id `x`: the first passes every gate,
    the second has an empty description (structure-gate failure). -/
def svcC4 : ScoreSvc := fun k v =>
  if k = "name" ∧ v = "x" then some 95
  else if k = "type" ∧ v = "integer" then some 80
  else if k = "description" ∧ v = "a fine description" then some 80
  else some 0

def rawC4 : String := "\"x\": integer, a fine description\n\"x\": string,"

def yamlC4 : YDict := [("data", YVal.entries [⟨rawC4⟩])]

/-- A single passing field, for witnesses. -/
def yamlW : YDict := [("people", YVal.entries [⟨"\"age\": integer, the age of a person"⟩])]

def colW : Column := ⟨"age", "integer", "the age of a person"⟩

/-- Candidate whose only dict key embeds a literal gate marker and whose value is not
    a list, so validation early-exits with a marker-carrying diagnostic. -/
def yamlC2 : YDict := [("data [NAME GATE] set", YVal.nonList)]

def sC2 : VState := { initState "doc.pdf" with current_yaml := some yamlC2, iteration_count := 1 }

def envC2 : Env := ⟨fun _ => Except.ok "", fun _ => Except.ok [], svc0⟩

def envW2 : Env := ⟨fun _ => Except.ok "", fun _ => Except.ok [], svcEx⟩

def wW2 : WStep :=
  ⟨Node.validate, { initState "w.pdf" with current_yaml := some yamlEx, iteration_count := 1 },
    [], 0, 0⟩

/-- A state already at the iteration cap, for the frame witness. -/
def sAtCap : VState := { initState "doc.pdf" with current_yaml := some yamlEx, iteration_count := 3 }

/-- Environment of the divergence run: extraction succeeds, the first generation
    returns a gate-failing schema, every later generation call raises. -/
def loopYaml : YDict := [("data", YVal.entries [⟨"\"a\": int, x"⟩])]

def loopEnv : Env :=
  ⟨fun _ => Except.ok "doc text",
   fun s =>
     match s.current_yaml with
     | none => Except.ok loopYaml
     | some _ => Except.error "generation service unavailable",
   svc0⟩

/-- Environment where extraction raises and generation would succeed if called. -/
def exEnv : Env :=
  ⟨fun _ => Except.error "cannot read PDF", fun _ => Except.ok loopYaml, svc0⟩

/-- Invariant of the divergence run under `loopEnv`: the class cache stays
    service-consistent, the iteration count never passes 1, and control cycles
    through the four non-terminal nodes with `loopYaml` as the candidate from the
    first generation on. -/
def loopInv (w : WStep) : Prop :=
  cacheConsistent svc0 w.cache ∧ w.state.iteration_count ≤ 1 ∧
  (((w.node = Node.start ∨ w.node = Node.extract) ∧ w.state.current_yaml = none ∧
      w.state.iteration_count = 0)
   ∨ (w.node = Node.generate ∧
       ((w.state.current_yaml = none ∧ w.state.iteration_count = 0) ∨
        (w.state.current_yaml = some loopYaml ∧ w.state.iteration_count = 1)))
   ∨ (w.node = Node.validate ∧ w.state.current_yaml = some loopYaml ∧
       w.state.iteration_count = 1))

/-! ### Generic helper lemmas -/

theorem foldl_inv {α β : Type} (P : β → Prop) (f : β → α → β) (l : List α) (b : β)
    (hb : P b) (hf : ∀ x, x ∈ l → ∀ acc, P acc → P (f acc x)) : P (l.foldl f b) := by
  induction l generalizing b with
  | nil => exact hb
  | cons x xs ih =>
    exact ih (f b x) (hf x (by simp) b hb) (fun y hy acc hacc => hf y (by simp [hy]) acc hacc)

theorem mem_setAdd {s : List String} {x y : String} : y ∈ setAdd s x ↔ y ∈ s ∨ y = x := by
  by_cases hx : x ∈ s
  · simp only [setAdd, if_pos hx]
    constructor
    · exact fun hy => Or.inl hy
    · rintro (hy | rfl)
      · exact hy
      · exact hx
  · simp [setAdd, if_neg hx]

theorem dictLookup_cons {β : Type} (a : String) (b : β) (t : List (String × β)) (k : String) :
    dictLookup ((a, b) :: t) k = if k = a then some b else dictLookup t k := rfl

theorem dictLookup_map_replace {β : Type} (t : List (String × β)) (k k' : String) (v : β) :
    dictLookup (t.map (fun kv => if kv.1 = k then (k, v) else kv)) k'
      = if k' = k then (dictLookup t k).map (fun _ => v) else dictLookup t k' := by
  induction t with
  | nil => simp [dictLookup]
  | cons kv t ih =>
    obtain ⟨a, b⟩ := kv
    rw [List.map_cons]
    by_cases hak : a = k
    · rw [show (if ((a, b) : String × β).1 = k then (k, v) else (a, b)) = (k, v) from
        if_pos hak]
      simp only [dictLookup_cons, ih]
      by_cases hk' : k' = k
      · have hka : k = a := hak.symm
        simp [hk', hka]
      · have hka : ¬k' = a := fun h => hk' (h.trans hak)
        simp [hk', hka]
    · rw [show (if ((a, b) : String × β).1 = k then (k, v) else (a, b)) = (a, b) from
        if_neg hak]
      simp only [dictLookup_cons, ih]
      have hka : ¬k = a := fun h => hak h.symm
      by_cases hk' : k' = a
      · have hkk : ¬k' = k := fun h => hak (hk'.symm.trans h)
        simp [hk', hkk, hka, hak]
      · simp [hk', hka]

theorem dictLookup_append_none {β : Type} (d₁ d₂ : List (String × β)) (k : String)
    (h : dictLookup d₁ k = none) : dictLookup (d₁ ++ d₂) k = dictLookup d₂ k := by
  induction d₁ with
  | nil => simp
  | cons kv t ih =>
    obtain ⟨a, b⟩ := kv
    by_cases hk : k = a
    · simp [dictLookup, hk] at h
    · simp only [List.cons_append, dictLookup, if_neg hk] at h ⊢
      exact ih h

theorem dictLookup_append_some {β : Type} (d₁ d₂ : List (String × β)) (k : String) (s : β)
    (h : dictLookup d₁ k = some s) : dictLookup (d₁ ++ d₂) k = some s := by
  induction d₁ with
  | nil => simp [dictLookup] at h
  | cons kv t ih =>
    obtain ⟨a, b⟩ := kv
    by_cases hk : k = a
    · simp only [dictLookup, if_pos hk] at h
      simp [dictLookup, hk, h]
    · simp only [List.cons_append, dictLookup, if_neg hk] at h ⊢
      exact ih h

theorem dictLookup_insert_self {β : Type} (d : List (String × β)) (k : String) (v : β) :
    dictLookup (dictInsert d k v) k = some v := by
  unfold dictInsert
  by_cases h : (dictLookup d k).isSome
  · rw [if_pos h, dictLookup_map_replace, if_pos rfl]
    obtain ⟨s, hs⟩ := Option.isSome_iff_exists.mp h
    simp [hs]
  · rw [if_neg h, dictLookup_append_none _ _ _ (Option.not_isSome_iff_eq_none.mp h)]
    simp [dictLookup]

theorem dictLookup_insert_ne {β : Type} (d : List (String × β)) (k k' : String) (v : β)
    (h : k' ≠ k) : dictLookup (dictInsert d k v) k' = dictLookup d k' := by
  unfold dictInsert
  by_cases hs : (dictLookup d k).isSome
  · rw [if_pos hs, dictLookup_map_replace, if_neg h]
  · rw [if_neg hs]
    cases hl : dictLookup d k' with
    | some s => rw [dictLookup_append_some _ _ _ _ hl]
    | none =>
      rw [dictLookup_append_none _ _ _ hl]
      simp [dictLookup, h]

theorem dictLookup_insert_isSome {β : Type} (d : List (String × β)) (k k' : String) (v : β) :
    (dictLookup (dictInsert d k v) k').isSome ↔ k' = k ∨ (dictLookup d k').isSome := by
  by_cases hk : k' = k
  · subst hk
    simp [dictLookup_insert_self]
  · rw [dictLookup_insert_ne d k k' v hk]
    simp [hk]

theorem buildPositionsAux_keys (cols : List Column) (i : Nat) (acc : List (String × Nat))
    (k : String) :
    (dictLookup (buildPositionsAux cols i acc) k).isSome ↔
      (dictLookup acc k).isSome ∨ k ∈ cols.map Column.name := by
  induction cols generalizing i acc with
  | nil => simp [buildPositionsAux]
  | cons c cs ih =>
    rw [buildPositionsAux, ih]
    rw [dictLookup_insert_isSome]
    simp only [List.map_cons, List.mem_cons]
    tauto

theorem buildPositions_keys (cols : List Column) (k : String) :
    (dictLookup (buildPositions cols) k).isSome ↔ k ∈ cols.map Column.name := by
  rw [buildPositions, buildPositionsAux_keys]
  simp [dictLookup]

/-! ### Substring reasoning -/

theorem isPrefB_iff (p l : List Char) : isPrefB p l = true ↔ p <+: l := by
  induction p generalizing l with
  | nil => simp [isPrefB]
  | cons a as ih =>
    cases l with
    | nil =>
      simp [isPrefB]
    | cons b bs =>
      rw [isPrefB]
      constructor
      · intro h
        obtain ⟨h1, h2⟩ := Bool.and_eq_true_iff.mp h
        obtain rfl : a = b := by simpa using h1
        obtain ⟨t, ht⟩ := (ih bs).mp h2
        exact ⟨t, by rw [List.cons_append, ht]⟩
      · rintro ⟨t, ht⟩
        rw [List.cons_append] at ht
        obtain ⟨rfl, htt⟩ := List.cons.inj ht
        rw [Bool.and_eq_true_iff]
        exact ⟨by simp, (ih bs).mpr ⟨t, htt⟩⟩

theorem isSubB_iff (p l : List Char) : isSubB p l = true ↔ p <:+: l := by
  induction l with
  | nil =>
    rw [isSubB]
    constructor
    · intro h
      have hp : p = [] := by simpa [List.isEmpty_iff] using h
      subst hp
      exact List.infix_rfl
    · intro h
      have hp : p = [] := List.eq_nil_of_infix_nil h
      simp [hp, List.isEmpty_iff]
  | cons c t ih =>
    rw [isSubB, Bool.or_eq_true, isPrefB_iff, ih, List.infix_cons_iff]

theorem sub_append_right {α : Type} {p b : List α} (a : List α) (h : p <:+: b) :
    p <:+: a ++ b := by
  obtain ⟨s, u, hsu⟩ := h
  exact ⟨a ++ s, u, by rw [← hsu]; simp⟩

theorem sub_append_left {α : Type} {p a : List α} (b : List α) (h : p <:+: a) :
    p <:+: a ++ b := by
  obtain ⟨s, u, hsu⟩ := h
  exact ⟨s, u ++ b, by rw [← hsu]; simp⟩

/-- Decompose an occurrence of `p` inside `a ++ b`: it lies in `a`, in `b`, or
    straddles the boundary. -/
theorem sub_append_elim {α : Type} {p a b : List α} (h : p <:+: a ++ b) :
    p <:+: a ∨ p <:+: b ∨
      ∃ p₁ p₂, p = p₁ ++ p₂ ∧ p₁ ≠ [] ∧ p₂ ≠ [] ∧ p₁ <:+ a ∧ p₂ <+: b := by
  obtain ⟨s, u, hsu⟩ := h
  have h1 : (s ++ p) ++ u = a ++ b := hsu
  rcases List.append_eq_append_iff.mp h1 with ⟨a', ha, hu⟩ | ⟨c', hsp, hb⟩
  · left
    exact ⟨s, a', by simp [ha]⟩
  · rcases List.append_eq_append_iff.mp hsp with ⟨a'', ha'', hp⟩ | ⟨s', hs', hc'⟩
    · by_cases hanil : a'' = []
      · subst hanil
        right; left
        rw [List.nil_append] at hp
        subst hp
        exact ⟨[], u, by simp [hb]⟩
      · by_cases hcnil : c' = []
        · subst hcnil
          rw [List.append_nil] at hp
          subst hp
          left
          exact ⟨s, [], by simp [ha'']⟩
        · right; right
          exact ⟨a'', c', hp, hanil, hcnil, ⟨s, ha''.symm⟩, ⟨u, hb.symm⟩⟩
    · right; left
      rw [hc'] at hb
      exact ⟨s', u, by simp [hb]⟩

theorem prefix_append_left {p a : List Char} (b : List Char) (h : p <+: a) : p <+: a ++ b :=
  h.trans (List.prefix_append a b)

theorem string_ext {s t : String} (h : s.data = t.data) : s = t := by
  cases s
  cases t
  simp only at h
  rw [h]

/-! ### Scoring and cache consistency -/

theorem colon_split {a₁ a₂ b₁ b₂ : List Char}
    (h : a₁ ++ ':' :: b₁ = a₂ ++ ':' :: b₂) (h₁ : ':' ∉ a₁) (h₂ : ':' ∉ a₂) :
    a₁ = a₂ ∧ b₁ = b₂ := by
  induction a₁ generalizing a₂ with
  | nil =>
    cases a₂ with
    | nil => simpa using h
    | cons c t =>
      exfalso
      rw [List.nil_append, List.cons_append] at h
      obtain ⟨rfl, -⟩ := List.cons.inj h
      exact h₂ (by simp)
  | cons c t ih =>
    cases a₂ with
    | nil =>
      exfalso
      rw [List.nil_append, List.cons_append] at h
      obtain ⟨rfl, -⟩ := List.cons.inj h
      exact h₁ (by simp)
    | cons d u =>
      rw [List.cons_append, List.cons_append] at h
      obtain ⟨rfl, h'⟩ := List.cons.inj h
      have hm₁ : ':' ∉ t := fun hm => h₁ (by simp [hm])
      have hm₂ : ':' ∉ u := fun hm => h₂ (by simp [hm])
      obtain ⟨rfl, hb⟩ := ih h' hm₁ hm₂
      exact ⟨rfl, hb⟩

theorem mkCacheKey_data (k v : String) : (mkCacheKey k v).data = k.data ++ ':' :: v.data := by
  rw [mkCacheKey, String.data_append, String.data_append]
  simp

theorem mkCacheKey_inj {k₁ k₂ v₁ v₂ : String} (h₁ : k₁ ∈ scoreKinds) (h₂ : k₂ ∈ scoreKinds)
    (h : mkCacheKey k₁ v₁ = mkCacheKey k₂ v₂) : k₁ = k₂ ∧ v₁ = v₂ := by
  have hd : k₁.data ++ ':' :: v₁.data = k₂.data ++ ':' :: v₂.data := by
    have := congrArg String.data h
    rwa [mkCacheKey_data, mkCacheKey_data] at this
  have hc₁ : ':' ∉ k₁.data := by
    fin_cases h₁ <;> decide
  have hc₂ : ':' ∉ k₂.data := by
    fin_cases h₂ <;> decide
  obtain ⟨hk, hv⟩ := colon_split hd hc₁ hc₂
  exact ⟨string_ext hk, string_ext hv⟩

theorem insert_cacheConsistent {svc : ScoreSvc} {cache : Cache} {k v : String} {s : ℚ}
    (hk : k ∈ scoreKinds) (hc : cacheConsistent svc cache) (hs : svc k v = some s) :
    cacheConsistent svc (dictInsert cache (mkCacheKey k v) s) := by
  intro k' v' s' hk' hl
  by_cases he : mkCacheKey k' v' = mkCacheKey k v
  · obtain ⟨rfl, rfl⟩ := mkCacheKey_inj hk' hk he
    rw [dictLookup_insert_self] at hl
    obtain rfl := Option.some.inj hl
    exact hs
  · rw [dictLookup_insert_ne _ _ _ _ he] at hl
    exact hc k' v' s' hk' hl

/-- On a service-consistent cache, `_score_component` returns exactly the service's
    degraded reply and preserves consistency. -/
theorem score_component_consistent (svc : ScoreSvc) (cache : Cache) (k v : String)
    (hk : k ∈ scoreKinds) (hc : cacheConsistent svc cache) :
    (score_component svc cache k v).score = scoreVal svc k v ∧
    cacheConsistent svc (score_component svc cache k v).cache := by
  unfold score_component scoreVal
  by_cases hv : v = ""
  · simp only [if_pos hv]
    exact ⟨trivial, hc⟩
  · simp only [if_neg hv]
    cases hl : dictLookup cache (mkCacheKey k v) with
    | some s =>
      have hsv := hc k v s hk hl
      simp [hsv, hc]
    | none =>
      cases hsvc : svc k v with
      | some s => exact ⟨by simp [hsvc], insert_cacheConsistent hk hc hsvc⟩
      | none => exact ⟨by simp [hsvc], hc⟩

/-- A cache hit returns the cached value and issues no service call
    (validator.py lines 42-43). -/
theorem score_component_hit (svc : ScoreSvc) (cache : Cache) (k v : String) (q : ℚ)
    (hv : v ≠ "") (hl : dictLookup cache (mkCacheKey k v) = some q) :
    score_component svc cache k v = ⟨q, cache, 0⟩ := by
  unfold score_component
  rw [if_neg hv, hl]

/-! ### The per-column loop: branch equations and invariants -/

theorem processColumn_skip (svc : ScoreSvc) (ev : List String) (acc : LoopAcc) (col : Column)
    (h : col.name ∉ ev) :
    processColumn svc ev acc col =
      { acc with field_scores := acc.field_scores ++ [90],
                 skipped_count := acc.skipped_count + 1 } := by
  simp [processColumn, h]

theorem processColumn_structure (svc : ScoreSvc) (ev : List String) (acc : LoopAcc)
    (col : Column) (hin : ¬col.name ∉ ev)
    (hs : pyStrip col.name = "" ∨ pyStrip col.dtype = "" ∨ pyStrip col.descr = "") :
    processColumn svc ev acc col =
      { acc with
        evaluated_count := acc.evaluated_count + 1,
        structure_fail := true,
        feedback_lines := acc.feedback_lines
          ++ (if pyStrip col.name = "" then [structureMsgName col.name] else [])
          ++ (if pyStrip col.dtype = "" then [structureMsgType col.name] else [])
          ++ (if pyStrip col.descr = "" then [structureMsgDesc col.name] else []),
        failed_fields := acc.failed_fields ++ [col.name] } := by
  simp only [processColumn, if_neg hin, if_pos hs]

theorem processColumn_scored (svc : ScoreSvc) (ev : List String) (acc : LoopAcc)
    (col : Column) (hin : ¬col.name ∉ ev)
    (hs : ¬(pyStrip col.name = "" ∨ pyStrip col.dtype = "" ∨ pyStrip col.descr = "")) :
    processColumn svc ev acc col =
      (let r1 := score_component svc acc.cache "name" (pyStrip col.name)
       let r2 := score_component svc r1.cache "type" (pyStrip col.dtype)
       let r3 := score_component svc r2.cache "description" (pyStrip col.descr)
       { acc with
         evaluated_count := acc.evaluated_count + 1,
         field_scores := acc.field_scores ++ [r1.score * 0.5 + r3.score * 0.3 + r2.score * 0.2],
         name_fail := acc.name_fail || decide (r1.score < 90),
         quality_fail := acc.quality_fail || decide (r2.score < 75) || decide (r3.score < 75),
         feedback_lines := acc.feedback_lines
           ++ (if r1.score < 90 then [nameGateMsg col.name r1.score] else [])
           ++ (if r2.score < 75 then [typeGateMsg col.name r2.score] else [])
           ++ (if r3.score < 75 then [descGateMsg col.name r3.score] else []),
         failed_fields := if r1.score < 90 ∨ r2.score < 75 ∨ r3.score < 75
           then acc.failed_fields ++ [col.name] else acc.failed_fields,
         cache := r3.cache,
         calls := acc.calls + r1.calls + r2.calls + r3.calls }) := by
  simp only [processColumn, if_neg hin, if_neg hs]

theorem structureMsgName_tag (id : String) :
    ∃ t, t ∈ gateTags ∧ t.data <+: (structureMsgName id).data := by
  refine ⟨"[STRUCTURE]", by simp [gateTags], ?_⟩
  rw [structureMsgName]
  simp only [String.data_append, List.append_assoc]
  exact prefix_append_left _ (by decide)

theorem structureMsgType_tag (id : String) :
    ∃ t, t ∈ gateTags ∧ t.data <+: (structureMsgType id).data := by
  refine ⟨"[STRUCTURE]", by simp [gateTags], ?_⟩
  rw [structureMsgType]
  simp only [String.data_append, List.append_assoc]
  exact prefix_append_left _ (by decide)

theorem structureMsgDesc_tag (id : String) :
    ∃ t, t ∈ gateTags ∧ t.data <+: (structureMsgDesc id).data := by
  refine ⟨"[STRUCTURE]", by simp [gateTags], ?_⟩
  rw [structureMsgDesc]
  simp only [String.data_append, List.append_assoc]
  exact prefix_append_left _ (by decide)

theorem nameGateMsg_tag (id : String) (s : ℚ) :
    ∃ t, t ∈ gateTags ∧ t.data <+: (nameGateMsg id s).data := by
  refine ⟨"[NAME GATE]", by simp [gateTags], ?_⟩
  rw [nameGateMsg]
  simp only [String.data_append, List.append_assoc]
  exact prefix_append_left _ (by decide)

theorem typeGateMsg_tag (id : String) (s : ℚ) :
    ∃ t, t ∈ gateTags ∧ t.data <+: (typeGateMsg id s).data := by
  refine ⟨"[TYPE GATE]", by simp [gateTags], ?_⟩
  rw [typeGateMsg]
  simp only [String.data_append, List.append_assoc]
  exact prefix_append_left _ (by decide)

theorem descGateMsg_tag (id : String) (s : ℚ) :
    ∃ t, t ∈ gateTags ∧ t.data <+: (descGateMsg id s).data := by
  refine ⟨"[DESC GATE]", by simp [gateTags], ?_⟩
  rw [descGateMsg]
  simp only [String.data_append, List.append_assoc]
  exact prefix_append_left _ (by decide)

theorem processColumn_inv (svc : ScoreSvc) (ev : List String) (acc : LoopAcc) (col : Column)
    (h : accInv acc) : accInv (processColumn svc ev acc col) := by
  by_cases hin : col.name ∉ ev
  · rw [processColumn_skip svc ev acc col hin]
    exact h
  · by_cases hs : pyStrip col.name = "" ∨ pyStrip col.dtype = "" ∨ pyStrip col.descr = ""
    · rw [processColumn_structure svc ev acc col hin hs]
      constructor
      · simp only
        constructor
        · intro hnil
          exfalso
          rcases hs with h0 | h0 | h0 <;> simp [h0] at hnil
        · intro hb
          simp at hb
      · intro l hl
        simp only [List.mem_append] at hl
        rcases hl with ((hl | hl) | hl) | hl
        · exact h.2 l hl
        · by_cases h0 : pyStrip col.name = ""
          · simp only [if_pos h0, List.mem_singleton] at hl
            exact hl ▸ structureMsgName_tag col.name
          · simp [if_neg h0] at hl
        · by_cases h0 : pyStrip col.dtype = ""
          · simp only [if_pos h0, List.mem_singleton] at hl
            exact hl ▸ structureMsgType_tag col.name
          · simp [if_neg h0] at hl
        · by_cases h0 : pyStrip col.descr = ""
          · simp only [if_pos h0, List.mem_singleton] at hl
            exact hl ▸ structureMsgDesc_tag col.name
          · simp [if_neg h0] at hl
    · rw [processColumn_scored svc ev acc col hin hs]
      simp only
      constructor
      · by_cases h1 : (score_component svc acc.cache "name" (pyStrip col.name)).score < 90 <;>
          by_cases h2 : (score_component svc
            (score_component svc acc.cache "name" (pyStrip col.name)).cache
            "type" (pyStrip col.dtype)).score < 75 <;>
          by_cases h3 : (score_component svc (score_component svc
              (score_component svc acc.cache "name" (pyStrip col.name)).cache
              "type" (pyStrip col.dtype)).cache
            "description" (pyStrip col.descr)).score < 75 <;>
          simp [h1, h2, h3, h.1]
      · intro l hl
        simp only [List.mem_append] at hl
        rcases hl with ((hl | hl) | hl) | hl
        · exact h.2 l hl
        · by_cases h1 : (score_component svc acc.cache "name" (pyStrip col.name)).score < 90
          · simp only [if_pos h1, List.mem_singleton] at hl
            exact hl ▸ nameGateMsg_tag col.name _
          · simp [if_neg h1] at hl
        · by_cases h2 : (score_component svc
              (score_component svc acc.cache "name" (pyStrip col.name)).cache
              "type" (pyStrip col.dtype)).score < 75
          · simp only [if_pos h2, List.mem_singleton] at hl
            exact hl ▸ typeGateMsg_tag col.name _
          · simp [if_neg h2] at hl
        · by_cases h3 : (score_component svc (score_component svc
              (score_component svc acc.cache "name" (pyStrip col.name)).cache
              "type" (pyStrip col.dtype)).cache
              "description" (pyStrip col.descr)).score < 75
          · simp only [if_pos h3, List.mem_singleton] at hl
            exact hl ▸ descGateMsg_tag col.name _
          · simp [if_neg h3] at hl

theorem loop_accInv (svc : ScoreSvc) (ev : List String) (cols : List Column) (cache : Cache) :
    accInv (cols.foldl (processColumn svc ev) (initAcc cache)) := by
  refine foldl_inv accInv (processColumn svc ev) cols (initAcc cache) ?_ ?_
  · exact ⟨by simp [initAcc], by simp [initAcc]⟩
  · exact fun c _ acc h => processColumn_inv svc ev acc c h

theorem processColumn_failed_cases (svc : ScoreSvc) (ev : List String) (acc : LoopAcc)
    (col : Column) :
    (processColumn svc ev acc col).failed_fields = acc.failed_fields ∨
    ((processColumn svc ev acc col).failed_fields = acc.failed_fields ++ [col.name]
      ∧ col.name ∈ ev) := by
  by_cases hin : col.name ∉ ev
  · rw [processColumn_skip svc ev acc col hin]
    left
    rfl
  · have hmem : col.name ∈ ev := not_not.mp hin
    by_cases hs : pyStrip col.name = "" ∨ pyStrip col.dtype = "" ∨ pyStrip col.descr = ""
    · rw [processColumn_structure svc ev acc col hin hs]
      right
      exact ⟨rfl, hmem⟩
    · rw [processColumn_scored svc ev acc col hin hs]
      dsimp only
      by_cases hf : (score_component svc acc.cache "name" (pyStrip col.name)).score < 90 ∨
          (score_component svc (score_component svc acc.cache "name" (pyStrip col.name)).cache
            "type" (pyStrip col.dtype)).score < 75 ∨
          (score_component svc (score_component svc
              (score_component svc acc.cache "name" (pyStrip col.name)).cache
              "type" (pyStrip col.dtype)).cache "description" (pyStrip col.descr)).score < 75
      · rw [if_pos hf]
        right
        exact ⟨rfl, hmem⟩
      · rw [if_neg hf]
        left
        rfl

theorem loop_failed_sub (svc : ScoreSvc) (ev : List String) (cols : List Column)
    (cache : Cache) :
    ∀ x, x ∈ (cols.foldl (processColumn svc ev) (initAcc cache)).failed_fields → x ∈ ev := by
  refine foldl_inv (fun a => ∀ x, x ∈ a.failed_fields → x ∈ ev)
    (processColumn svc ev) cols (initAcc cache) ?_ ?_
  · simp [initAcc]
  · intro c _ acc h x hx
    rcases processColumn_failed_cases svc ev acc c with heq | ⟨heq, hm⟩
    · exact h x (heq ▸ hx)
    · rw [heq] at hx
      simp only [List.mem_append, List.mem_singleton] at hx
      rcases hx with hx | rfl
      · exact h x hx
      · exact hm

/-! ### The evaluation set -/

theorem mem_evalStep (cols : List Column) (positions prevPos : List (String × Nat))
    (s : List String) (f x : String) :
    x ∈ evalStep cols positions prevPos s f ↔
      x ∈ s ∨ ((dictLookup positions f).isSome ∧ x = f) ∨
        (¬(dictLookup positions f).isSome = true ∧ ∃ pos, dictLookup prevPos f = some pos ∧
          pos < cols.length ∧ x = (cols.getD pos ⟨"", "", ""⟩).name) := by
  unfold evalStep
  by_cases hp : (dictLookup positions f).isSome
  · rw [if_pos hp, mem_setAdd]
    simp [hp]
  · rw [if_neg hp]
    cases hpp : dictLookup prevPos f with
    | some pos =>
      dsimp only
      by_cases hlt : pos < cols.length
      · rw [if_pos hlt, mem_setAdd]
        constructor
        · rintro (hx | rfl)
          · exact Or.inl hx
          · exact Or.inr (Or.inr ⟨hp, pos, rfl, hlt, rfl⟩)
        · rintro (hx | ⟨hsome, -⟩ | ⟨-, pos', hpos', -, rfl⟩)
          · exact Or.inl hx
          · exact absurd hsome hp
          · obtain rfl := Option.some.inj hpos'
            exact Or.inr rfl
      · rw [if_neg hlt]
        constructor
        · exact fun hx => Or.inl hx
        · rintro (hx | ⟨hsome, -⟩ | ⟨-, pos', hpos', hlt', -⟩)
          · exact hx
          · exact absurd hsome hp
          · obtain rfl := Option.some.inj hpos'
            exact absurd hlt' hlt
    | none =>
      dsimp only
      constructor
      · exact fun hx => Or.inl hx
      · rintro (hx | ⟨hsome, -⟩ | ⟨-, pos', hpos', -, -⟩)
        · exact hx
        · exact absurd hsome hp
        · exact Option.noConfusion hpos'

theorem mem_fieldsToEvaluate_aux (cols : List Column)
    (positions prevPos : List (String × Nat)) (pf : List String) (s0 : List String)
    (x : String) :
    x ∈ pf.foldl (evalStep cols positions prevPos) s0 ↔
      x ∈ s0 ∨ ∃ f, f ∈ pf ∧
        (((dictLookup positions f).isSome ∧ x = f) ∨
         (¬(dictLookup positions f).isSome = true ∧ ∃ pos, dictLookup prevPos f = some pos ∧
            pos < cols.length ∧ x = (cols.getD pos ⟨"", "", ""⟩).name)) := by
  induction pf generalizing s0 with
  | nil => simp
  | cons f fs ih =>
    rw [List.foldl_cons, ih, mem_evalStep]
    constructor
    · rintro ((h0 | h0) | ⟨g, hg, hC⟩)
      · exact Or.inl h0
      · exact Or.inr ⟨f, by simp, h0⟩
      · exact Or.inr ⟨g, by simp [hg], hC⟩
    · rintro (h0 | ⟨g, hg, hC⟩)
      · exact Or.inl (Or.inl h0)
      · rcases List.mem_cons.mp hg with rfl | hg'
        · exact Or.inl (Or.inr hC)
        · exact Or.inr ⟨g, hg', hC⟩

theorem mem_fieldsToEvaluate (cols : List Column) (pf : List String)
    (pp : List (String × Nat)) (x : String) :
    x ∈ fieldsToEvaluate cols (buildPositions cols) pf pp ↔
      (x ∈ pf ∧ x ∈ cols.map Column.name) ∨
      (∃ f, f ∈ pf ∧ f ∉ cols.map Column.name ∧ ∃ pos, dictLookup pp f = some pos ∧
        pos < cols.length ∧ x = (cols.getD pos ⟨"", "", ""⟩).name) := by
  rw [fieldsToEvaluate, mem_fieldsToEvaluate_aux]
  simp only [List.not_mem_nil, false_or]
  constructor
  · rintro ⟨f, hf, (⟨hsome, rfl⟩ | ⟨hnone, pos, hpos, hlt, rfl⟩)⟩
    · exact Or.inl ⟨hf, (buildPositions_keys cols _).mp hsome⟩
    · exact Or.inr ⟨f, hf, fun hm => hnone ((buildPositions_keys cols f).mpr hm),
        pos, hpos, hlt, rfl⟩
  · rintro (⟨hx, hm⟩ | ⟨f, hf, hnm, pos, hpos, hlt, rfl⟩)
    · exact ⟨x, hx, Or.inl ⟨(buildPositions_keys cols x).mpr hm, rfl⟩⟩
    · exact ⟨f, hf, Or.inr ⟨fun hs2 => hnm ((buildPositions_keys cols f).mp hs2),
        pos, hpos, hlt, rfl⟩⟩

theorem evalStep_nil (pp : List (String × Nat)) (s : List String) (f : String) :
    evalStep [] (buildPositions []) pp s f = s := by
  unfold evalStep
  rw [if_neg (by simp [buildPositions, buildPositionsAux, dictLookup])]
  cases hpp : dictLookup pp f with
  | some pos =>
    dsimp only
    rw [if_neg (by simp)]
  | none => rfl

theorem fieldsToEvaluate_nil (pf : List String) (pp : List (String × Nat)) :
    fieldsToEvaluate [] (buildPositions []) pf pp = [] := by
  rw [fieldsToEvaluate]
  have hgen : ∀ s0, pf.foldl (evalStep [] (buildPositions []) pp) s0 = s0 := by
    induction pf with
    | nil => intro s0; rfl
    | cons f fs ih =>
      intro s0
      rw [List.foldl_cons, evalStep_nil, ih]
  exact hgen []

/-! ### Gate tags and feedback text -/

theorem pyJoin_head_pref (sep : String) (l : String) (ls : List String) :
    l.data <+: (pyJoin sep (l :: ls)).data := by
  rw [pyJoin]
  refine foldl_inv (fun acc : String => l.data <+: acc.data) _ ls l List.prefix_rfl ?_
  intro x _ acc hacc
  rw [String.data_append, String.data_append]
  exact prefix_append_left _ (prefix_append_left _ hacc)

theorem containsGateTag_of_sub {feedback t : String} (ht : t ∈ gateTags)
    (h : t.data <:+: feedback.data) : containsGateTag feedback = true := by
  rw [containsGateTag, List.any_eq_true]
  refine ⟨t, ht, ?_⟩
  rw [strContains]
  exact (isSubB_iff _ _).mpr h

theorem containsGateTag_false {feedback : String}
    (h : ∀ t, t ∈ gateTags → ¬ t.data <:+: feedback.data) :
    containsGateTag feedback = false := by
  cases hc : containsGateTag feedback
  · rfl
  · exfalso
    rw [containsGateTag, List.any_eq_true] at hc
    obtain ⟨t, ht, hsub⟩ := hc
    rw [strContains] at hsub
    exact h t ht ((isSubB_iff _ _).mp hsub)

theorem containsGateTag_wrap {dn : String} (h : containsGateTag dn = false) :
    containsGateTag ("No entries under dataset '" ++ dn ++ "'") = false := by
  apply containsGateTag_false
  intro t ht hsub
  rw [String.data_append, String.data_append] at hsub
  have hhead : t.data.head? = some '[' := by fin_cases ht <;> decide
  have hlast : t.data.getLast? = some ']' := by fin_cases ht <;> decide
  have hlen : 1 < t.data.length := by fin_cases ht <;> decide
  have hnotdn : ¬ t.data <:+: dn.data := fun hc =>
    absurd ((containsGateTag_of_sub ht hc).symm.trans h) (by decide)
  rcases sub_append_elim hsub with hcase | hcase | ⟨p₁, p₂, hp, hp₁ne, hp₂ne, hp₁, hp₂⟩
  · rcases sub_append_elim hcase with h2 | h2 | ⟨q₁, q₂, hq, hq₁ne, hq₂ne, hq₁, hq₂⟩
    · have hb := (isSubB_iff t.data ("No entries under dataset '").data).mpr h2
      revert hb
      fin_cases ht <;> decide
    · exact hnotdn h2
    · obtain ⟨c, cs, rfl⟩ := List.exists_cons_of_ne_nil hq₁ne
      have hc : c = '[' := by
        have hh : t.data.head? = some c := by rw [hq]; rfl
        rw [hhead] at hh
        exact (Option.some.inj hh).symm
      have hmem : c ∈ ("No entries under dataset '").data := hq₁.subset (by simp)
      rw [hc] at hmem
      revert hmem
      decide
  · have hle := hcase.length_le
    revert hle
    fin_cases ht <;> decide
  · have hp₂' : p₂ = ['\''] := by
      obtain ⟨c, cs, rfl⟩ := List.exists_cons_of_ne_nil hp₂ne
      obtain ⟨r, hr⟩ := hp₂
      rw [List.cons_append] at hr
      obtain ⟨rfl, hr2⟩ := List.cons.inj hr
      have hcs : cs = [] := (List.append_eq_nil.mp hr2).1
      rw [hcs]
    have hl : t.data.getLast? = some '\'' := by
      rw [hp, hp₂', List.getLast?_concat]
    rw [hlast] at hl
    exact absurd (Option.some.inj hl) (by decide)

theorem containsGateTag_buildFeedback (lines : List String) (ss conf : ℚ)
    (retry sf nf qf : Bool) (failed : List String)
    (hiff : (lines = []) ↔ (sf || nf || qf) = false)
    (htags : ∀ l, l ∈ lines → ∃ t, t ∈ gateTags ∧ t.data <+: l.data) :
    containsGateTag (buildFeedback lines ss conf retry sf nf qf failed)
      = (sf || nf || qf) := by
  cases lines with
  | nil =>
    rw [hiff.mp rfl]
    simp only [buildFeedback, List.isEmpty_nil, if_true]
    decide
  | cons l ls =>
    have hflag : (sf || nf || qf) = true := by
      cases hcf : (sf || nf || qf)
      · exact absurd (hiff.mpr hcf) (by simp)
      · rfl
    rw [hflag]
    simp only [buildFeedback]
    rw [if_neg (by simp)]
    obtain ⟨t, ht, hpre⟩ := htags l (by simp)
    have hjoin : t.data <:+: (pyJoin "\n" (l :: ls)).data :=
      (hpre.trans (pyJoin_head_pref _ l ls)).isInfix
    by_cases hr : retry = true
    · rw [if_pos hr]
      apply containsGateTag_of_sub ht
      simp only [String.data_append, List.append_assoc]
      exact sub_append_right _ (sub_append_left _ hjoin)
    · rw [if_neg hr]
      apply containsGateTag_of_sub ht
      simp only [String.data_append, List.append_assoc]
      exact sub_append_right _ (sub_append_left _ hjoin)

/-! ### Structural reductions of `check_yaml` -/

theorem check_yaml_main (svc : ScoreSvc) (cache : Cache) (yaml : Option YDict)
    (pf : List String) (pp : List (String × Nat)) (it : Nat)
    (h : parsedColumns yaml ≠ []) :
    check_yaml svc cache yaml pf pp it = mainCheck svc cache (parsedColumns yaml) pf pp it := by
  rcases yaml with _ | d
  · exact absurd rfl h
  rcases d with _ | ⟨⟨dn, v⟩, rest⟩
  · exact absurd rfl h
  rcases v with es | _
  · rcases es with _ | ⟨e, es'⟩
    · exact absurd rfl h
    · by_cases hc : e.content = ""
      · rw [show parsedColumns (some ((dn, YVal.entries (e :: es')) :: rest)) = [] by
          simp [parsedColumns, hc]] at h
        exact absurd rfl h
      · have h' : parseColumns e.content ≠ [] := by
          simpa [parsedColumns, hc] using h
        simp only [check_yaml, parsedColumns]
        rw [if_neg hc, if_neg hc, if_neg (by simpa [List.isEmpty_iff] using h')]
  · exact absurd rfl h

/-- Any parsed result of `_check_yaml` whose candidate yields no columns is one of
    the four diagnostic early exits. -/
theorem check_yaml_early (svc : ScoreSvc) (cache : Cache) (yaml : Option YDict)
    (pf : List String) (pp : List (String × Nat)) (it : Nat)
    (h : parsedColumns yaml = []) :
    ∃ msg, check_yaml svc cache yaml pf pp it = earlyResult msg cache ∧
      (msg = "No YAML content found" ∨
       (∃ dn, msg = "No entries under dataset '" ++ dn ++ "'") ∨
       msg = "No 'content' found in dataset entry" ∨
       msg = "No valid fields found in schema") := by
  rcases yaml with _ | d
  · exact ⟨_, rfl, Or.inl rfl⟩
  rcases d with _ | ⟨⟨dn, v⟩, rest⟩
  · exact ⟨_, rfl, Or.inl rfl⟩
  rcases v with es | _
  · rcases es with _ | ⟨e, es'⟩
    · exact ⟨_, rfl, Or.inr (Or.inl ⟨dn, rfl⟩)⟩
    · by_cases hc : e.content = ""
      · refine ⟨_, ?_, Or.inr (Or.inr (Or.inl rfl))⟩
        simp only [check_yaml]
        rw [if_pos hc]
      · have h' : parseColumns e.content = [] := by
          simpa [parsedColumns, hc] using h
        refine ⟨_, ?_, Or.inr (Or.inr (Or.inr rfl))⟩
        simp only [check_yaml]
        rw [if_neg hc, if_pos (by simp [List.isEmpty_iff, h'])]
  · exact ⟨_, rfl, Or.inr (Or.inl ⟨dn, rfl⟩)⟩

/-- The feedback `_check_yaml` returns contains a literal gate marker exactly when a
    gate failed, provided no key of the candidate dict itself embeds a marker. -/
theorem check_yaml_tag_iff (svc : ScoreSvc) (cache : Cache) (yaml : Option YDict)
    (pf : List String) (pp : List (String × Nat)) (it : Nat)
    (hclean : ∀ d, yaml = some d → ∀ p, p ∈ d → containsGateTag p.1 = false) :
    containsGateTag (check_yaml svc cache yaml pf pp it).feedback
      = gateFailure (check_yaml svc cache yaml pf pp it) := by
  rcases yaml with _ | d
  · exact (by decide : containsGateTag "No YAML content found" = false)
  rcases d with _ | ⟨⟨dn, v⟩, rest⟩
  · exact (by decide : containsGateTag "No YAML content found" = false)
  have hdn : containsGateTag dn = false := by
    rcases v with es | _
    · exact hclean _ rfl (dn, YVal.entries es) (by simp)
    · exact hclean _ rfl (dn, YVal.nonList) (by simp)
  rcases v with es | _
  · rcases es with _ | ⟨e, es'⟩
    · exact containsGateTag_wrap hdn
    · by_cases hc : e.content = ""
      · have hred : check_yaml svc cache (some ((dn, YVal.entries (e :: es')) :: rest)) pf pp it
            = earlyResult "No 'content' found in dataset entry" cache := by
          simp only [check_yaml]
          rw [if_pos hc]
        rw [hred]
        exact (by decide : containsGateTag "No 'content' found in dataset entry" = false)
      · by_cases hcols : parseColumns e.content = []
        · have hred : check_yaml svc cache (some ((dn, YVal.entries (e :: es')) :: rest)) pf pp it
              = earlyResult "No valid fields found in schema" cache := by
            simp only [check_yaml]
            rw [if_neg hc, if_pos (by simp [List.isEmpty_iff, hcols])]
          rw [hred]
          exact (by decide : containsGateTag "No valid fields found in schema" = false)
        · have hred : check_yaml svc cache (some ((dn, YVal.entries (e :: es')) :: rest)) pf pp it
              = mainCheck svc cache (parseColumns e.content) pf pp it := by
            simp only [check_yaml]
            rw [if_neg hc, if_neg (by simp [List.isEmpty_iff, hcols])]
          rw [hred]
          have hinv := loop_accInv svc (evalSet (parseColumns e.content) pf pp it)
            (parseColumns e.content) cache
          exact containsGateTag_buildFeedback _ _ _ _ _ _ _ _ hinv.1 hinv.2
  · exact containsGateTag_wrap hdn

/-! ### The divergence run: a persistently failing generator loops forever -/

theorem cacheConsistent_nil (svc : ScoreSvc) : cacheConsistent svc [] := by
  intro k v s hk hl
  simp [dictLookup] at hl

theorem processColumn_consistent (svc : ScoreSvc) (ev : List String) (acc : LoopAcc)
    (col : Column) (hcons : cacheConsistent svc acc.cache) :
    cacheConsistent svc (processColumn svc ev acc col).cache := by
  by_cases hin : col.name ∉ ev
  · rw [processColumn_skip svc ev acc col hin]
    exact hcons
  · by_cases hs : pyStrip col.name = "" ∨ pyStrip col.dtype = "" ∨ pyStrip col.descr = ""
    · rw [processColumn_structure svc ev acc col hin hs]
      exact hcons
    · rw [processColumn_scored svc ev acc col hin hs]
      dsimp only
      obtain ⟨-, h1⟩ := score_component_consistent svc acc.cache "name" (pyStrip col.name)
        (by simp [scoreKinds]) hcons
      obtain ⟨-, h2⟩ := score_component_consistent svc _ "type" (pyStrip col.dtype)
        (by simp [scoreKinds]) h1
      obtain ⟨-, h3⟩ := score_component_consistent svc _ "description" (pyStrip col.descr)
        (by simp [scoreKinds]) h2
      exact h3

theorem parsedColumns_loopYaml : parsedColumns (some loopYaml) = [⟨"a", "int", "x"⟩] := by
  decide

theorem loopYaml_main (svc : ScoreSvc) (cache : Cache) (pf : List String)
    (pp : List (String × Nat)) (it : Nat) :
    check_yaml svc cache (some loopYaml) pf pp it
      = mainCheck svc cache [⟨"a", "int", "x"⟩] pf pp it := by
  rw [check_yaml_main svc cache (some loopYaml) pf pp it
      (by rw [parsedColumns_loopYaml]; simp), parsedColumns_loopYaml]

theorem evalSet_loop (pf : List String) (pp : List (String × Nat)) :
    evalSet [⟨"a", "int", "x"⟩] pf pp 1 = ["a"] := by
  rw [evalSet, if_neg (by simp)]
  rfl

theorem loopYaml_gate (cache : Cache) (pf : List String) (pp : List (String × Nat))
    (hc : cacheConsistent svc0 cache) :
    gateFailure (check_yaml svc0 cache (some loopYaml) pf pp 1) = true
  ∧ cacheConsistent svc0 (check_yaml svc0 cache (some loopYaml) pf pp 1).cache := by
  rw [loopYaml_main]
  have hin : ¬ (Column.name ⟨"a", "int", "x"⟩ ∉ evalSet [⟨"a", "int", "x"⟩] pf pp 1) := by
    rw [evalSet_loop]
    simp
  have hs : ¬(pyStrip (Column.name ⟨"a", "int", "x"⟩) = "" ∨
      pyStrip (Column.dtype ⟨"a", "int", "x"⟩) = "" ∨
      pyStrip (Column.descr ⟨"a", "int", "x"⟩) = "") := by
    decide
  have hproc := processColumn_scored svc0 (evalSet [⟨"a", "int", "x"⟩] pf pp 1)
    (initAcc cache) ⟨"a", "int", "x"⟩ hin hs
  constructor
  · show ((([⟨"a", "int", "x"⟩] : List Column).foldl
        (processColumn svc0 (evalSet [⟨"a", "int", "x"⟩] pf pp 1))
        (initAcc cache)).structure_fail
      || (([⟨"a", "int", "x"⟩] : List Column).foldl
        (processColumn svc0 (evalSet [⟨"a", "int", "x"⟩] pf pp 1))
        (initAcc cache)).name_fail
      || (([⟨"a", "int", "x"⟩] : List Column).foldl
        (processColumn svc0 (evalSet [⟨"a", "int", "x"⟩] pf pp 1))
        (initAcc cache)).quality_fail) = true
    rw [show (([⟨"a", "int", "x"⟩] : List Column).foldl
        (processColumn svc0 (evalSet [⟨"a", "int", "x"⟩] pf pp 1)) (initAcc cache))
        = processColumn svc0 (evalSet [⟨"a", "int", "x"⟩] pf pp 1) (initAcc cache)
            ⟨"a", "int", "x"⟩ from rfl]
    rw [hproc]
    dsimp only
    obtain ⟨hsc1, -⟩ := score_component_consistent svc0 (initAcc cache).cache "name"
      (pyStrip (Column.name ⟨"a", "int", "x"⟩)) (by simp [scoreKinds]) hc
    rw [hsc1]
    rw [show scoreVal svc0 "name" (pyStrip (Column.name ⟨"a", "int", "x"⟩)) = 0 by
      with_unfolding_all decide]
    rw [show decide ((0 : ℚ) < 90) = true by with_unfolding_all decide]
    simp
  · exact processColumn_consistent svc0 (evalSet [⟨"a", "int", "x"⟩] pf pp 1)
      (initAcc cache) ⟨"a", "int", "x"⟩ hc

theorem loopYaml_clean :
    ∀ d, (some loopYaml : Option YDict) = some d → ∀ p, p ∈ d → containsGateTag p.1 = false := by
  rintro d hd p hp
  obtain rfl := Option.some.inj hd
  simp only [loopYaml, List.mem_singleton] at hp
  subst hp
  decide

theorem loopYaml_tag (cache : Cache) (pf : List String) (pp : List (String × Nat))
    (hc : cacheConsistent svc0 cache) :
    containsGateTag (check_yaml svc0 cache (some loopYaml) pf pp 1).feedback = true := by
  rw [check_yaml_tag_iff svc0 cache (some loopYaml) pf pp 1 loopYaml_clean]
  exact (loopYaml_gate cache pf pp hc).1

theorem step_eq_start (cfg : WorkflowConfig) (env : Env) (s : VState) (cache : Cache)
    (g sc : Nat) :
    step cfg env ⟨Node.start, s, cache, g, sc⟩ = ⟨Node.extract, s, cache, g, sc⟩ := rfl

theorem step_eq_extract (cfg : WorkflowConfig) (env : Env) (s : VState) (cache : Cache)
    (g sc : Nat) :
    step cfg env ⟨Node.extract, s, cache, g, sc⟩
      = ⟨Node.generate, extractStep env s, cache, g, sc⟩ := rfl

theorem step_eq_generate (cfg : WorkflowConfig) (env : Env) (s : VState) (cache : Cache)
    (g sc : Nat) :
    step cfg env ⟨Node.generate, s, cache, g, sc⟩
      = ⟨Node.validate, generateStep env s, cache, g + 1, sc⟩ := rfl

theorem step_eq_validate (cfg : WorkflowConfig) (env : Env) (s : VState) (cache : Cache)
    (g sc : Nat) :
    step cfg env ⟨Node.validate, s, cache, g, sc⟩
      = ⟨validate_router cfg (validate_and_suggest env.svc cfg cache s).state,
         (validate_and_suggest env.svc cfg cache s).state,
         (validate_and_suggest env.svc cfg cache s).cache, g,
         sc + (validate_and_suggest env.svc cfg cache s).calls⟩ := rfl

theorem loop_validate_step (s : VState) (cache : Cache) (g sc : Nat)
    (hc : cacheConsistent svc0 cache) (hy : s.current_yaml = some loopYaml)
    (hi : s.iteration_count = 1) :
    (step defaultConfig loopEnv ⟨Node.validate, s, cache, g, sc⟩).node = Node.generate
  ∧ loopInv (step defaultConfig loopEnv ⟨Node.validate, s, cache, g, sc⟩) := by
  have hle : ¬ (defaultConfig.max_iterations ≤ s.iteration_count) := by
    rw [hi]
    decide
  have hst : (validate_and_suggest svc0 defaultConfig cache s).state.validation_feedback
      = some ((check_yaml svc0 cache (some loopYaml) s.failed_fields
          s.field_positions 1).feedback) := by
    simp only [validate_and_suggest, if_neg hle]
    rw [hy, hi]
  have hit' : (validate_and_suggest svc0 defaultConfig cache s).state.iteration_count = 1 := by
    simp only [validate_and_suggest, if_neg hle]
    exact hi
  have hcy : (validate_and_suggest svc0 defaultConfig cache s).state.current_yaml
      = some loopYaml := by
    simp only [validate_and_suggest, if_neg hle]
    exact hy
  have hcc : cacheConsistent svc0 (validate_and_suggest svc0 defaultConfig cache s).cache := by
    simp only [validate_and_suggest, if_neg hle]
    rw [hy, hi]
    exact (loopYaml_gate cache s.failed_fields s.field_positions hc).2
  have hrouter : validate_router defaultConfig
      (validate_and_suggest svc0 defaultConfig cache s).state = Node.generate := by
    rw [validate_router, hst]
    rw [show (some ((check_yaml svc0 cache (some loopYaml) s.failed_fields
        s.field_positions 1).feedback)).getD "" = (check_yaml svc0 cache (some loopYaml)
        s.failed_fields s.field_positions 1).feedback from rfl]
    rw [loopYaml_tag cache s.failed_fields s.field_positions hc]
    rw [if_pos rfl, hit']
    rw [if_pos (by decide : (1 : Nat) < defaultConfig.max_iterations)]
  rw [step_eq_validate]
  have henv : (loopEnv).svc = svc0 := rfl
  rw [henv]
  refine ⟨hrouter, hcc, ?_, Or.inr (Or.inl ⟨hrouter, Or.inr ⟨hcy, hit'⟩⟩)⟩
  rw [show (⟨validate_router defaultConfig (validate_and_suggest svc0 defaultConfig cache s).state,
      (validate_and_suggest svc0 defaultConfig cache s).state,
      (validate_and_suggest svc0 defaultConfig cache s).cache, g,
      sc + (validate_and_suggest svc0 defaultConfig cache s).calls⟩ : WStep).state
      = (validate_and_suggest svc0 defaultConfig cache s).state from rfl]
  rw [hit']

theorem loopInv_step (w : WStep) (h : loopInv w) :
    loopInv (step defaultConfig loopEnv w) := by
  obtain ⟨hc, hit, hcase⟩ := h
  rcases w with ⟨node, s, cache, g, sc⟩
  rcases hcase with ⟨hn, hy, hi⟩ | ⟨hn, hy⟩ | ⟨hn, hy, hi⟩
  · rcases hn with hn | hn
    · have hn' : node = Node.start := hn
      subst hn'
      rw [step_eq_start]
      exact ⟨hc, hit, Or.inl ⟨Or.inr rfl, hy, hi⟩⟩
    · have hn' : node = Node.extract := hn
      subst hn'
      rw [step_eq_extract]
      have hex : extractStep loopEnv s = { s with extracted_text := "doc text" } := rfl
      rw [hex]
      exact ⟨hc, hit, Or.inr (Or.inl ⟨rfl, Or.inl ⟨hy, hi⟩⟩)⟩
  · have hn' : node = Node.generate := hn
    subst hn'
    rw [step_eq_generate]
    rcases hy with ⟨hy, hi⟩ | ⟨hy, hi⟩
    · have hgen : generateStep loopEnv s
          = { s with current_yaml := some loopYaml,
                     iteration_count := s.iteration_count + 1 } := by
        simp only [generateStep, loopEnv]
        rw [hy]
      rw [hgen]
      refine ⟨hc, ?_, Or.inr (Or.inr ⟨rfl, rfl, ?_⟩)⟩
      · show s.iteration_count + 1 ≤ 1
        rw [hi]
      · show s.iteration_count + 1 = 1
        rw [hi]
    · have hgen : generateStep loopEnv s
          = { s with error := some "generation service unavailable", is_final := true } := by
        simp only [generateStep, loopEnv]
        rw [hy]
      rw [hgen]
      exact ⟨hc, by show s.iteration_count ≤ 1; rw [hi], Or.inr (Or.inr ⟨rfl, hy, hi⟩)⟩
  · have hn' : node = Node.validate := hn
    subst hn'
    exact (loop_validate_step s cache g sc hc hy hi).2

theorem loopInv_stepN (n : Nat) :
    loopInv (stepN defaultConfig loopEnv n (initW "doc.pdf" [])) := by
  induction n with
  | zero => exact ⟨cacheConsistent_nil svc0, Nat.zero_le 1, Or.inl ⟨Or.inl rfl, rfl, rfl⟩⟩
  | succ n ih => exact loopInv_step _ ih

theorem loop_not_terminal (n : Nat) :
    (stepN defaultConfig loopEnv n (initW "doc.pdf" [])).node ≠ Node.done ∧
    (stepN defaultConfig loopEnv n (initW "doc.pdf" [])).node ≠ Node.output := by
  obtain ⟨-, -, hcase⟩ := loopInv_stepN n
  rcases hcase with ⟨hn | hn, -, -⟩ | ⟨hn, -⟩ | ⟨hn, -, -⟩ <;>
    exact ⟨by rw [hn]; decide, by rw [hn]; decide⟩

theorem loop_validate_next (m : Nat)
    (hv : (stepN defaultConfig loopEnv m (initW "doc.pdf" [])).node = Node.validate) :
    (stepN defaultConfig loopEnv (m + 1) (initW "doc.pdf" [])).node = Node.generate := by
  have hJ := loopInv_stepN m
  rcases hw : stepN defaultConfig loopEnv m (initW "doc.pdf" []) with ⟨node, s, cache, g, sc⟩
  rw [hw] at hJ hv
  have hv' : node = Node.validate := hv
  subst hv'
  obtain ⟨hc, -, hcase⟩ := hJ
  rcases hcase with ⟨hn | hn, -, -⟩ | ⟨hn, -⟩ | ⟨-, hy, hi⟩
  · exact absurd (show Node.validate = Node.start from hn) (by decide)
  · exact absurd (show Node.validate = Node.extract from hn) (by decide)
  · exact absurd (show Node.validate = Node.generate from hn) (by decide)
  · rw [show m + 1 = m + 1 from rfl, stepN, hw]
    exact (loop_validate_step s cache g sc hc hy hi).1

theorem loop_generate_next (m : Nat)
    (hg : (stepN defaultConfig loopEnv m (initW "doc.pdf" [])).node = Node.generate) :
    (stepN defaultConfig loopEnv (m + 1) (initW "doc.pdf" [])).node = Node.validate := by
  rcases hw : stepN defaultConfig loopEnv m (initW "doc.pdf" []) with ⟨node, s, cache, g, sc⟩
  rw [hw] at hg
  have hg' : node = Node.generate := hg
  subst hg'
  rw [stepN, hw, step_eq_generate]

theorem loop_validate_iter (m : Nat)
    (hv : (stepN defaultConfig loopEnv m (initW "doc.pdf" [])).node = Node.validate) :
    (stepN defaultConfig loopEnv m (initW "doc.pdf" [])).state.iteration_count = 1 := by
  obtain ⟨-, -, hcase⟩ := loopInv_stepN m
  rcases hcase with ⟨hn | hn, -, -⟩ | ⟨hn, -⟩ | ⟨-, -, hi⟩
  · rw [hv] at hn
    exact absurd hn (by decide)
  · rw [hv] at hn
    exact absurd hn (by decide)
  · rw [hv] at hn
    exact absurd hn (by decide)
  · exact hi

theorem loop_node_parity (k : Nat) :
    (stepN defaultConfig loopEnv (2 * k + 3) (initW "doc.pdf" [])).node = Node.validate ∧
    (stepN defaultConfig loopEnv (2 * k + 4) (initW "doc.pdf" [])).node = Node.generate := by
  induction k with
  | zero =>
    have h3 : (stepN defaultConfig loopEnv 3 (initW "doc.pdf" [])).node = Node.validate := by
      with_unfolding_all decide
    exact ⟨h3, loop_validate_next 3 h3⟩
  | succ k ih =>
    have h5 : (stepN defaultConfig loopEnv (2 * k + 5) (initW "doc.pdf" [])).node
        = Node.validate := by
      have := loop_generate_next (2 * k + 4) ih.2
      rw [show 2 * k + 4 + 1 = 2 * k + 5 from rfl] at this
      exact this
    constructor
    · rw [show 2 * (k + 1) + 3 = 2 * k + 5 by omega]
      exact h5
    · rw [show 2 * (k + 1) + 4 = (2 * k + 5) + 1 by omega]
      exact loop_validate_next (2 * k + 5) h5

/-! ### Shared reductions used by the claim theorems -/

theorem validate_and_suggest_at_cap (svc : ScoreSvc) (cfg : WorkflowConfig) (cache : Cache)
    (s : VState) (h : cfg.max_iterations ≤ s.iteration_count) :
    validate_and_suggest svc cfg cache s = ⟨{ s with is_final := true }, cache, 0⟩ := by
  unfold validate_and_suggest
  rw [if_pos h]

/-! ### Claim theorems -/

/-- C1: the spec claims the generate/validate loop always terminates within
    `max_iterations` generate/validate rounds, with `iteration_count` incremented by
    one per generation attempt.  Counterexample run (`loopEnv`): extraction succeeds,
    the first generation returns a gate-failing schema, and every later generation
    call raises.  A raising `_generate_yaml` leaves `iteration_count` unchanged, the
    validator re-validates the stale candidate and again reports a gate failure, and
    the router sends the run back to generate: the run never reaches `output` or
    `done`, `iteration_count` never exceeds 1, and for every `k` step `2k+4` executes
    the generate node again — unboundedly many generation attempts, so the loop does
    not terminate within `max_iterations` rounds. -/
theorem generation_failure_loops :
    (∀ n : Nat,
      (stepN defaultConfig loopEnv n (initW "doc.pdf" [])).node ≠ Node.done ∧
      (stepN defaultConfig loopEnv n (initW "doc.pdf" [])).node ≠ Node.output ∧
      (stepN defaultConfig loopEnv n (initW "doc.pdf" [])).state.iteration_count ≤ 1) ∧
    (∀ k : Nat,
      (stepN defaultConfig loopEnv (2 * k + 3) (initW "doc.pdf" [])).node = Node.validate ∧
      (stepN defaultConfig loopEnv (2 * k + 4) (initW "doc.pdf" [])).node = Node.generate) := by
  refine ⟨fun n => ?_, loop_node_parity⟩
  obtain ⟨h1, h2⟩ := loop_not_terminal n
  exact ⟨h1, h2, (loopInv_stepN n).2.1⟩

/-- C10: once `iteration_count` has reached `max_iterations`, `validate_and_suggest`
    returns the state with `is_final := true` and every other field (confidence,
    feedback, failed fields, positions, candidate YAML) unchanged, leaves the cache
    untouched and makes no Scoring Service call: the final-round candidate is never
    parsed, scored, or validated. -/
theorem validator_frame_at_cap (svc : ScoreSvc) (cfg : WorkflowConfig) (cache : Cache)
    (s : VState) (h : cfg.max_iterations ≤ s.iteration_count) :
    validate_and_suggest svc cfg cache s = ⟨{ s with is_final := true }, cache, 0⟩ :=
  validate_and_suggest_at_cap svc cfg cache s h

theorem validator_frame_at_cap_witness :
    defaultConfig.max_iterations ≤ sAtCap.iteration_count ∧
    validate_and_suggest svc0 defaultConfig [] sAtCap
      = ⟨{ sAtCap with is_final := true }, [], 0⟩ :=
  ⟨by decide, validator_frame_at_cap svc0 defaultConfig [] sAtCap (by decide)⟩

/-- C7: counterexample run with a raising Extraction Service (`exEnv`): after the
    extract step the error is recorded and `is_final` is set, but the compiled graph
    has an unconditional extract → generate edge, so the run still executes the
    generate node: at step 3 the Generation Service has been called once and
    `iteration_count` has advanced to 1 — refuting "no generation attempt is made
    afterwards" and "iteration_count stays 0". -/
theorem extraction_failure_still_generates :
    (stepN defaultConfig exEnv 2 (initW "bad.pdf" [])).state.error
      = some "cannot read PDF" ∧
    (stepN defaultConfig exEnv 2 (initW "bad.pdf" [])).state.is_final = true ∧
    (stepN defaultConfig exEnv 2 (initW "bad.pdf" [])).node = Node.generate ∧
    (stepN defaultConfig exEnv 2 (initW "bad.pdf" [])).genCalls = 0 ∧
    (stepN defaultConfig exEnv 3 (initW "bad.pdf" [])).genCalls = 1 ∧
    (stepN defaultConfig exEnv 3 (initW "bad.pdf" [])).state.iteration_count = 1 := by
  with_unfolding_all decide

/-- C9 counterexample: when the Scoring Service call raises, `_score_component`
    degrades the failure to score 0 but does not cache it, so scoring the same
    (kind, value) pair twice issues a service call both times — two calls in total,
    refuting "exactly one Scoring Service call". -/
theorem score_failure_called_twice :
    score_component svcFail [] "name" "v" = ⟨0, [], 1⟩ ∧
    score_component svcFail (score_component svcFail [] "name" "v").cache "name" "v"
      = ⟨0, [], 1⟩ ∧
    (score_component svcFail [] "name" "v").calls
      + (score_component svcFail (score_component svcFail [] "name" "v").cache
          "name" "v").calls = 2 := by
  with_unfolding_all decide

/-- C9 amended: for a non-empty value not yet cached, when the Scoring Service call
    succeeds the reply is cached, so the first scoring issues exactly one call and a
    second scoring of the same (kind, value) pair is a cache hit returning the
    identical value with no further call; when the call raises, the result is not
    cached and a repeat scoring re-issues the call (see the counterexample). -/
theorem cache_idempotent_on_success (svc : ScoreSvc) (cache : Cache) (k v : String)
    (q : ℚ) (hv : v ≠ "") (hmiss : dictLookup cache (mkCacheKey k v) = none)
    (hsvc : svc k v = some q) :
    score_component svc cache k v = ⟨q, dictInsert cache (mkCacheKey k v) q, 1⟩ ∧
    score_component svc (score_component svc cache k v).cache k v
      = ⟨q, dictInsert cache (mkCacheKey k v) q, 0⟩ := by
  have h1 : score_component svc cache k v
      = ⟨q, dictInsert cache (mkCacheKey k v) q, 1⟩ := by
    unfold score_component
    rw [if_neg hv, hmiss, hsvc]
  refine ⟨h1, ?_⟩
  rw [h1]
  exact score_component_hit svc (dictInsert cache (mkCacheKey k v) q) k v q hv
    (dictLookup_insert_self cache (mkCacheKey k v) q)

theorem cache_idempotent_on_success_witness :
    ("age" : String) ≠ "" ∧ dictLookup ([] : Cache) (mkCacheKey "name" "age") = none ∧
    svcRun1 "name" "age" = some 42 ∧
    score_component svcRun1 (score_component svcRun1 [] "name" "age").cache "name" "age"
      = ⟨42, dictInsert [] (mkCacheKey "name" "age") 42, 0⟩ :=
  ⟨by decide, rfl, rfl,
    (cache_idempotent_on_success svcRun1 [] "name" "age" 42 (by decide) rfl rfl).2⟩

/-- C8 counterexample: `field_scores_cache` is a class attribute of `SchemaValidator`
    and `__init__` never resets it, so a second, unrelated conversion run starts from
    the first run's cache (`cacheAtRunStart`).  A pair scored 42 in run 1 is answered
    in run 2 from the stale cache with zero Scoring Service calls even though run 2's
    own service scores it 7; under the spec's per-run fresh cache
    (`specFreshCacheAtRunStart`) run 2 would call its service and obtain 7. -/
theorem cache_leaks_between_runs :
    score_component svcRun1 (cacheAtRunStart []) "name" "age"
      = ⟨42, [("name:age", 42)], 1⟩ ∧
    score_component svcRun2
        (cacheAtRunStart (score_component svcRun1 (cacheAtRunStart []) "name" "age").cache)
        "name" "age"
      = ⟨42, [("name:age", 42)], 0⟩ ∧
    score_component svcRun2
        (specFreshCacheAtRunStart
          (score_component svcRun1 (cacheAtRunStart []) "name" "age").cache)
        "name" "age"
      = ⟨7, [("name:age", 7)], 1⟩ := by
  with_unfolding_all decide

/-- C8 amended: the field score cache is class-level state shared across orchestrator
    invocations: a new run starts from whatever earlier runs left in the class dict,
    and any (kind, value) pair present there is answered from the stale cache with no
    call to the current run's Scoring Service — cached scores of one run do influence
    lookups of a different run. -/
theorem class_cache_persists (classCache : Cache) (svc : ScoreSvc) (k v : String)
    (s : ℚ) (hv : v ≠ "")
    (hhit : dictLookup (cacheAtRunStart classCache) (mkCacheKey k v) = some s) :
    score_component svc (cacheAtRunStart classCache) k v
      = ⟨s, cacheAtRunStart classCache, 0⟩ :=
  score_component_hit svc (cacheAtRunStart classCache) k v s hv hhit

theorem class_cache_persists_witness :
    ("x" : String) ≠ "" ∧
    dictLookup (cacheAtRunStart [("name:x", 33)]) (mkCacheKey "name" "x") = some 33 ∧
    score_component svcRun2 (cacheAtRunStart [("name:x", 33)]) "name" "x"
      = ⟨33, cacheAtRunStart [("name:x", 33)], 0⟩ :=
  ⟨by decide, by with_unfolding_all decide,
    class_cache_persists [("name:x", 33)] svcRun2 "name" "x" 33 (by decide)
      (by with_unfolding_all decide)⟩

/-- C6 counterexample: with no YAML content at all — one of the zero-parsed-field
    cases the claim covers — the returned feedback is the diagnostic
    "No YAML content found", not a message stating that no valid fields were found;
    `_check_yaml` has four distinct zero-field diagnostics and only the
    unparseable-schema one mentions fields.  The other claimed components do hold. -/
theorem zero_fields_feedback_counterexample :
    parsedColumns none = [] ∧
    (check_yaml svc0 [] none [] [] 1).feedback = "No YAML content found" ∧
    (check_yaml svc0 [] none [] [] 1).feedback ≠ "No valid fields found in schema" ∧
    (check_yaml svc0 [] none [] [] 1).is_valid = false ∧
    (check_yaml svc0 [] none [] [] 1).confidence = 0 ∧
    (check_yaml svc0 [] none [] [] 1).failed_fields = [] := by
  with_unfolding_all decide

/-- C6 amended: for every candidate with zero parsed fields (missing, empty, or
    unparseable schema text), validation returns `is_valid = false`, confidence 0,
    empty failed-field and field-position sets, leaves the cache unchanged, makes no
    Scoring Service call, and returns one of the four zero-field diagnostics — a
    terminal-shaped but non-fatal result; only the unparseable-schema diagnostic
    states that no valid fields were found. -/
theorem zero_fields_nonfatal (svc : ScoreSvc) (cache : Cache) (yaml : Option YDict)
    (pf : List String) (pp : List (String × Nat)) (it : Nat)
    (h : parsedColumns yaml = []) :
    (check_yaml svc cache yaml pf pp it).is_valid = false ∧
    (check_yaml svc cache yaml pf pp it).confidence = 0 ∧
    (check_yaml svc cache yaml pf pp it).failed_fields = [] ∧
    (check_yaml svc cache yaml pf pp it).field_positions = [] ∧
    (check_yaml svc cache yaml pf pp it).cache = cache ∧
    (check_yaml svc cache yaml pf pp it).calls = 0 ∧
    ((check_yaml svc cache yaml pf pp it).feedback = "No YAML content found" ∨
     (∃ dn, (check_yaml svc cache yaml pf pp it).feedback
        = "No entries under dataset '" ++ dn ++ "'") ∨
     (check_yaml svc cache yaml pf pp it).feedback = "No 'content' found in dataset entry" ∨
     (check_yaml svc cache yaml pf pp it).feedback = "No valid fields found in schema") := by
  obtain ⟨msg, hres, hmsg⟩ := check_yaml_early svc cache yaml pf pp it h
  rw [hres]
  refine ⟨rfl, rfl, rfl, rfl, rfl, rfl, ?_⟩
  rcases hmsg with h1 | ⟨dn, h1⟩ | h1 | h1
  · exact Or.inl (by rw [h1]; exact rfl)
  · exact Or.inr (Or.inl ⟨dn, by rw [h1]; exact rfl⟩)
  · exact Or.inr (Or.inr (Or.inl (by rw [h1]; exact rfl)))
  · exact Or.inr (Or.inr (Or.inr (by rw [h1]; exact rfl)))

theorem zero_fields_nonfatal_witness :
    parsedColumns (some yamlC2) = [] ∧
    (check_yaml svc95 [] (some yamlC2) [] [] 1).is_valid = false :=
  ⟨rfl, (zero_fields_nonfatal svc95 [] (some yamlC2) [] [] 1 rfl).1⟩

theorem validate_router_generate (cfg : WorkflowConfig) (s : VState) :
    validate_router cfg s = Node.generate ↔
      containsGateTag ((s.validation_feedback).getD "") = true ∧
      s.iteration_count < cfg.max_iterations := by
  unfold validate_router
  by_cases ht : containsGateTag ((s.validation_feedback).getD "") = true
  · rw [if_pos ht]
    by_cases hlt : s.iteration_count < cfg.max_iterations
    · rw [if_pos hlt]
      simp [ht, hlt]
    · rw [if_neg hlt]
      simp [hlt]
  · rw [if_neg ht]
    simp [ht]

theorem step_validate_node (cfg : WorkflowConfig) (env : Env) (s : VState) (cache : Cache)
    (g sc : Nat) :
    (step cfg env ⟨Node.validate, s, cache, g, sc⟩).node
      = validate_router cfg (validate_and_suggest env.svc cfg cache s).state := rfl

/-- C2 counterexample: the router decides by string-matching literal gate markers in
    the feedback text.  With candidate `yamlC2`, whose only dict key embeds the text
    `[NAME GATE]` and whose value is not a list, validation early-exits: no gate
    failure is reported (`gateFailure = false`, `failed_fields = []`), yet the
    diagnostic quotes the dataset name, the router finds the marker in it and — with
    `iteration_count < max_iterations` — routes to generate instead of output,
    refuting the "only if" direction of the claim. -/
theorem router_tag_in_dataset_name :
    gateFailure (check_yaml svc0 [] (some yamlC2) [] [] 1) = false ∧
    (check_yaml svc0 [] (some yamlC2) [] [] 1).failed_fields = [] ∧
    sC2.iteration_count < defaultConfig.max_iterations ∧
    (step defaultConfig envC2 ⟨Node.validate, sC2, [], 0, 0⟩).node = Node.generate := by
  with_unfolding_all decide

/-- C2 amended: after a validation step the workflow routes back to generate iff the
    feedback string contains a literal gate marker and `iteration_count` is below the
    cap; whenever no key of the candidate dict itself embeds a gate marker, this
    coincides with "the current validation reported a gate failure and
    iteration_count < max_iterations" (and in every other case the run leaves the
    generate/validate cycle). -/
theorem router_gate_failure_iff (cfg : WorkflowConfig) (env : Env) (w : WStep)
    (hn : w.node = Node.validate)
    (hclean : ∀ d, w.state.current_yaml = some d → ∀ p, p ∈ d →
      containsGateTag p.1 = false) :
    ((step cfg env w).node = Node.generate ↔
      gateFailure (check_yaml env.svc w.cache w.state.current_yaml w.state.failed_fields
          w.state.field_positions w.state.iteration_count) = true ∧
      w.state.iteration_count < cfg.max_iterations) := by
  rcases w with ⟨node, s, cache, g, sc⟩
  have hn' : node = Node.validate := hn
  subst hn'
  dsimp only at hclean ⊢
  rw [step_validate_node, validate_router_generate]
  by_cases hcap : cfg.max_iterations ≤ s.iteration_count
  · rw [validate_and_suggest_at_cap env.svc cfg cache s hcap]
    constructor
    · rintro ⟨-, hlt⟩
      exact absurd hcap (Nat.not_le.mpr hlt)
    · rintro ⟨-, hlt⟩
      exact absurd hcap (Nat.not_le.mpr hlt)
  · have hfb : (validate_and_suggest env.svc cfg cache s).state.validation_feedback
        = some ((check_yaml env.svc cache s.current_yaml s.failed_fields
            s.field_positions s.iteration_count).feedback) := by
      simp only [validate_and_suggest, if_neg hcap]
    have hit : (validate_and_suggest env.svc cfg cache s).state.iteration_count
        = s.iteration_count := by
      simp only [validate_and_suggest, if_neg hcap]
    rw [hfb, hit]
    rw [show (some ((check_yaml env.svc cache s.current_yaml s.failed_fields
        s.field_positions s.iteration_count).feedback)).getD ""
        = (check_yaml env.svc cache s.current_yaml s.failed_fields
            s.field_positions s.iteration_count).feedback from rfl]
    rw [check_yaml_tag_iff env.svc cache s.current_yaml s.failed_fields s.field_positions
        s.iteration_count hclean]

theorem router_gate_failure_iff_witness :
    wW2.node = Node.validate ∧
    ((step defaultConfig envW2 wW2).node = Node.generate ↔
      gateFailure (check_yaml envW2.svc wW2.cache wW2.state.current_yaml
          wW2.state.failed_fields wW2.state.field_positions
          wW2.state.iteration_count) = true ∧
      wW2.state.iteration_count < defaultConfig.max_iterations) :=
  ⟨rfl, router_gate_failure_iff defaultConfig envW2 wW2 rfl
    (by
      intro d hd p hp
      have hd' : some yamlEx = some d := hd
      obtain rfl := Option.some.inj hd'
      simp only [yamlEx, List.mem_singleton] at hp
      subst hp
      decide)⟩

/-- C3: on an iteration greater than 1 with a non-empty prior failure set, the
    evaluation set `_check_yaml` uses is exactly `fields_to_evaluate`: a field is in
    it iff it is a prior failed id still present among the parsed field names, or the
    name of the field at a prior in-bounds ordinal position of a failed id no longer
    present; every column whose id is outside the set takes the skip branch, which
    appends the fixed pass-through weighted score 90 without any scoring call; and
    every id in the returned `failed_fields` lies inside the evaluation set, so a
    field outside it is never added to `failed_fields`. -/
theorem selective_evaluation_scope (svc : ScoreSvc) (cache : Cache) (yaml : Option YDict)
    (pf : List String) (pp : List (String × Nat)) (it : Nat)
    (h1 : 1 < it) (h2 : pf ≠ []) :
    (check_yaml svc cache yaml pf pp it).fields_to_evaluate
      = fieldsToEvaluate (parsedColumns yaml) (buildPositions (parsedColumns yaml)) pf pp ∧
    (∀ x, x ∈ (check_yaml svc cache yaml pf pp it).fields_to_evaluate ↔
      (x ∈ pf ∧ x ∈ (parsedColumns yaml).map Column.name) ∨
      (∃ f, f ∈ pf ∧ f ∉ (parsedColumns yaml).map Column.name ∧
        ∃ pos, dictLookup pp f = some pos ∧ pos < (parsedColumns yaml).length ∧
          x = ((parsedColumns yaml).getD pos ⟨"", "", ""⟩).name)) ∧
    (∀ acc col, col.name ∉ (check_yaml svc cache yaml pf pp it).fields_to_evaluate →
      processColumn svc (check_yaml svc cache yaml pf pp it).fields_to_evaluate acc col
        = { acc with field_scores := acc.field_scores ++ [90],
                     skipped_count := acc.skipped_count + 1 }) ∧
    (∀ x, x ∈ (check_yaml svc cache yaml pf pp it).failed_fields →
      x ∈ (check_yaml svc cache yaml pf pp it).fields_to_evaluate) := by
  by_cases hcols : parsedColumns yaml = []
  · obtain ⟨msg, hres, -⟩ := check_yaml_early svc cache yaml pf pp it hcols
    rw [hres, hcols, fieldsToEvaluate_nil]
    refine ⟨rfl, ?_, ?_, ?_⟩
    · intro x
      simp [earlyResult]
    · intro acc col hno
      exact processColumn_skip svc _ acc col hno
    · intro x hx
      exact absurd hx (by simp [earlyResult])
  · rw [check_yaml_main svc cache yaml pf pp it hcols]
    have hev : (mainCheck svc cache (parsedColumns yaml) pf pp it).fields_to_evaluate
        = evalSet (parsedColumns yaml) pf pp it := rfl
    have hsel : evalSet (parsedColumns yaml) pf pp it
        = fieldsToEvaluate (parsedColumns yaml) (buildPositions (parsedColumns yaml)) pf pp := by
      unfold evalSet
      rw [if_pos ⟨h1, h2⟩]
    refine ⟨hev.trans hsel, ?_, ?_, ?_⟩
    · intro x
      rw [hev.trans hsel]
      exact mem_fieldsToEvaluate (parsedColumns yaml) pf pp x
    · intro acc col hno
      exact processColumn_skip svc _ acc col hno
    · intro x hx
      rw [hev]
      exact loop_failed_sub svc (evalSet (parsedColumns yaml) pf pp it)
        (parsedColumns yaml) cache x hx

theorem selective_evaluation_scope_witness :
    1 < 2 ∧ (["age"] : List String) ≠ [] ∧
    (check_yaml svcEx [] (some yamlEx) ["age"] [] 2).fields_to_evaluate
      = fieldsToEvaluate (parsedColumns (some yamlEx))
          (buildPositions (parsedColumns (some yamlEx))) ["age"] [] :=
  ⟨by decide, by decide,
    (selective_evaluation_scope svcEx [] (some yamlEx) ["age"] [] 2
      (by decide) (by decide)).1⟩

/-- C5: the returned confidence always equals the mean of the field weighted scores
    (a zero-field result counting as mean 0, including the pass-through 90s
    otherwise) divided by 100 and rounded to 4 decimal places; and on the spec's
    two-field example (sub-scores 95/95/95 for `age`, 40/80/80 for `name`) the
    weighted scores are [95, 60], `failed_fields = ["name"]`, `is_valid = false` and
    confidence = 0.775. -/
theorem confidence_mean_and_example :
    (∀ (svc : ScoreSvc) (cache : Cache) (yaml : Option YDict) (pf : List String)
      (pp : List (String × Nat)) (it : Nat),
      (check_yaml svc cache yaml pf pp it).confidence
        = round4 ((if (check_yaml svc cache yaml pf pp it).field_scores.isEmpty then 0
            else (check_yaml svc cache yaml pf pp it).field_scores.sum
              / ((check_yaml svc cache yaml pf pp it).field_scores.length : ℚ)) / 100)) ∧
    (check_yaml svcEx [] (some yamlEx) [] [] 1).field_scores = [95, 60] ∧
    (check_yaml svcEx [] (some yamlEx) [] [] 1).failed_fields = ["name"] ∧
    (check_yaml svcEx [] (some yamlEx) [] [] 1).is_valid = false ∧
    (check_yaml svcEx [] (some yamlEx) [] [] 1).confidence = 0.775 := by
  refine ⟨?_, by with_unfolding_all decide⟩
  intro svc cache yaml pf pp it
  by_cases hcols : parsedColumns yaml = []
  · obtain ⟨msg, hres, -⟩ := check_yaml_early svc cache yaml pf pp it hcols
    rw [hres]
    rw [show (earlyResult msg cache).confidence = 0 from rfl,
        show (earlyResult msg cache).field_scores = ([] : List ℚ) from rfl]
    rw [show (([] : List ℚ).isEmpty : Bool) = true from rfl, if_pos rfl]
    with_unfolding_all decide
  · rw [check_yaml_main svc cache yaml pf pp it hcols]
    rfl

/-- C4 counterexample: two parsed fields can share the id `x`.  With `yamlC4` the
    first `x` column is evaluated, has non-empty name/type/description and service
    sub-scores name = 95 ≥ 90, type = 80 ≥ 75, description = 80 ≥ 75 — yet `x` is in
    the returned `failed_fields`, because the second `x` column fails the structure
    gate (empty description) and field ids are recorded by name. -/
theorem passing_field_duplicate_id_failed :
    parsedColumns (some yamlC4)
      = [⟨"x", "integer", "a fine description"⟩, ⟨"x", "string", ""⟩] ∧
    scoreVal svcC4 "name" "x" = 95 ∧
    scoreVal svcC4 "type" "integer" = 80 ∧
    scoreVal svcC4 "description" "a fine description" = 80 ∧
    "x" ∈ (check_yaml svcC4 [] (some yamlC4) [] [] 1).fields_to_evaluate ∧
    (check_yaml svcC4 [] (some yamlC4) [] [] 1).failed_fields = ["x"] := by
  with_unfolding_all decide

theorem processColumn_passing (svc : ScoreSvc) (ev : List String) (acc : LoopAcc)
    (col : Column) (hcons : cacheConsistent svc acc.cache)
    (hs : ¬(pyStrip col.name = "" ∨ pyStrip col.dtype = "" ∨ pyStrip col.descr = ""))
    (hn : 90 ≤ scoreVal svc "name" (pyStrip col.name))
    (ht : 75 ≤ scoreVal svc "type" (pyStrip col.dtype))
    (hd : 75 ≤ scoreVal svc "description" (pyStrip col.descr)) :
    (processColumn svc ev acc col).failed_fields = acc.failed_fields := by
  by_cases hin : col.name ∉ ev
  · rw [processColumn_skip svc ev acc col hin]
  · rw [processColumn_scored svc ev acc col hin hs]
    dsimp only
    obtain ⟨h1s, h1c⟩ := score_component_consistent svc acc.cache "name" (pyStrip col.name)
      (by simp [scoreKinds]) hcons
    obtain ⟨h2s, h2c⟩ := score_component_consistent svc _ "type" (pyStrip col.dtype)
      (by simp [scoreKinds]) h1c
    obtain ⟨h3s, -⟩ := score_component_consistent svc _ "description" (pyStrip col.descr)
      (by simp [scoreKinds]) h2c
    rw [if_neg]
    push_neg
    refine ⟨?_, ?_, ?_⟩
    · rw [h1s]
      exact hn
    · rw [h2s]
      exact ht
    · rw [h3s]
      exact hd

/-- C4 amended: provided the parsed field ids are pairwise distinct, every evaluated
    field with non-empty stripped name/type/description whose service sub-scores meet
    the gates (name ≥ 90, type ≥ 75, description ≥ 75) never has its id in the
    returned `failed_fields` (with duplicate ids this fails — see the
    counterexample); and an evaluated scored field always contributes the weighted
    score 0.5·name + 0.3·description + 0.2·type. -/
theorem passing_field_not_failed (svc : ScoreSvc) (cache : Cache) (yaml : Option YDict)
    (pf : List String) (pp : List (String × Nat)) (it : Nat) (col : Column)
    (hnodup : ((parsedColumns yaml).map Column.name).Nodup)
    (hcons : cacheConsistent svc cache)
    (hmem : col ∈ parsedColumns yaml)
    (hs : ¬(pyStrip col.name = "" ∨ pyStrip col.dtype = "" ∨ pyStrip col.descr = ""))
    (hn : 90 ≤ scoreVal svc "name" (pyStrip col.name))
    (ht : 75 ≤ scoreVal svc "type" (pyStrip col.dtype))
    (hd : 75 ≤ scoreVal svc "description" (pyStrip col.descr)) :
    col.name ∉ (check_yaml svc cache yaml pf pp it).failed_fields ∧
    (∀ ev acc, cacheConsistent svc acc.cache → ¬ col.name ∉ ev →
      (processColumn svc ev acc col).field_scores = acc.field_scores ++
        [scoreVal svc "name" (pyStrip col.name) * 0.5
          + scoreVal svc "description" (pyStrip col.descr) * 0.3
          + scoreVal svc "type" (pyStrip col.dtype) * 0.2]) := by
  constructor
  · by_cases hcols : parsedColumns yaml = []
    · rw [hcols] at hmem
      exact absurd hmem (List.not_mem_nil col)
    · rw [check_yaml_main svc cache yaml pf pp it hcols]
      show col.name ∉ ((parsedColumns yaml).foldl
        (processColumn svc (evalSet (parsedColumns yaml) pf pp it)) (initAcc cache)).failed_fields
      have hall := foldl_inv
        (fun a : LoopAcc => col.name ∉ a.failed_fields ∧ cacheConsistent svc a.cache)
        (processColumn svc (evalSet (parsedColumns yaml) pf pp it)) (parsedColumns yaml)
        (initAcc cache) ⟨by simp [initAcc], hcons⟩ ?_
      · exact hall.1
      · intro c hcmem acc hacc
        refine ⟨?_, processColumn_consistent svc _ acc c hacc.2⟩
        by_cases hceq : c.name = col.name
        · have hcol : c = col :=
            List.inj_on_of_nodup_map hnodup hcmem hmem hceq
          subst hcol
          rw [processColumn_passing svc _ acc c hacc.2 hs hn ht hd]
          exact hacc.1
        · rcases processColumn_failed_cases svc (evalSet (parsedColumns yaml) pf pp it)
            acc c with heq | ⟨heq, -⟩
          · rw [heq]
            exact hacc.1
          · rw [heq]
            intro hx
            rcases List.mem_append.mp hx with hx | hx
            · exact hacc.1 hx
            · exact hceq (List.mem_singleton.mp hx).symm
  · intro ev acc hacc hin
    rw [processColumn_scored svc ev acc col hin hs]
    dsimp only
    obtain ⟨h1s, h1c⟩ := score_component_consistent svc acc.cache "name" (pyStrip col.name)
      (by simp [scoreKinds]) hacc
    obtain ⟨h2s, h2c⟩ := score_component_consistent svc _ "type" (pyStrip col.dtype)
      (by simp [scoreKinds]) h1c
    obtain ⟨h3s, -⟩ := score_component_consistent svc _ "description" (pyStrip col.descr)
      (by simp [scoreKinds]) h2c
    rw [h1s, h2s, h3s]

theorem passing_field_not_failed_witness :
    ((parsedColumns (some yamlW)).map Column.name).Nodup ∧
    colW ∈ parsedColumns (some yamlW) ∧
    colW.name ∉ (check_yaml svc95 [] (some yamlW) [] [] 1).failed_fields :=
  ⟨by decide, by decide,
    (passing_field_not_failed svc95 [] (some yamlW) [] [] 1 colW (by decide)
      (cacheConsistent_nil svc95) (by decide) (by decide)
      (by with_unfolding_all decide) (by with_unfolding_all decide)
      (by with_unfolding_all decide)).1⟩

end PdfToYaml
